import Mathlib

/-!
Verification of the biomechanical event-detection, feature-extraction and
scoring engine of the baseball pitching-analysis backend.

The Python source is shallowly embedded: machine floats are modelled as exact
rationals (every float value is a rational number); functions whose value is
irrational (square roots, inverse cosine, atan2) land in the real numbers.
Python dictionaries are modelled as association lists in insertion order;
a Python TypeError raised by comparing None with a float is modelled by the
Except error value.
-/

namespace Pitch

/-- One detected keypoint of a pose frame: pixel x, pixel y (y grows downward)
and a confidence value, exactly as in the rows of the `(17, 3)` keypoint
array of the Python code. -/
structure Pt where
  x : ℚ
  y : ℚ
  c : ℚ
deriving DecidableEq

/-- The fixed 17-keypoint skeleton of one frame (COCO topology). -/
abbrev Keypoints := Fin 17 → Pt

/-- One element of a pose sequence: `{"frame": int, "keypoints": np.ndarray(17, 3)}`. -/
structure PoseItem where
  frame : ℕ
  keypoints : Keypoints

/-- Index of the left shoulder in the COCO_KEYPOINTS table. -/
def kpLeftShoulder : Fin 17 := 5

/-- Index of the right shoulder in the COCO_KEYPOINTS table. -/
def kpRightShoulder : Fin 17 := 6

/-- Index of the right elbow in the COCO_KEYPOINTS table. -/
def kpRightElbow : Fin 17 := 8

/-- Index of the right wrist in the COCO_KEYPOINTS table. -/
def kpRightWrist : Fin 17 := 10

/-- Index of the left hip in the COCO_KEYPOINTS table. -/
def kpLeftHip : Fin 17 := 11

/-- Index of the right hip in the COCO_KEYPOINTS table. -/
def kpRightHip : Fin 17 := 12

/-- The `[:2]` slice of a keypoint row: its 2D pixel position. -/
def pt2 (p : Pt) : ℚ × ℚ := (p.x, p.y)

/-- Componentwise difference of 2D points (`a - b` on numpy arrays). -/
def vsub (p q : ℚ × ℚ) : ℚ × ℚ := (p.1 - q.1, p.2 - q.2)

/-- Dot product of 2D vectors (`np.dot`). -/
def dot (v w : ℚ × ℚ) : ℚ := v.1 * w.1 + v.2 * w.2

/-- Euclidean norm of a 2D vector (`np.linalg.norm`). -/
noncomputable def norm2 (v : ℚ × ℚ) : ℝ := Real.sqrt (((v.1 : ℝ)) ^ 2 + ((v.2 : ℝ)) ^ 2)

/-- The clamp `np.clip(x, -1.0, 1.0)`. -/
noncomputable def clip1 (x : ℝ) : ℝ := min (max x (-1)) 1

/-- Embedding of `calculate_pixel_angle(a, b, c)` from kinematicsModule.py:
the angle (in degrees) at vertex `b` between the rays towards `a` and `c`,
computed via the normalized dot product, with the cosine clipped to `[-1, 1]`
before `arccos`; `None` when either ray vector has zero length. -/
noncomputable def calculate_pixel_angle (a b c : ℚ × ℚ) : Option ℝ :=
  if norm2 (vsub a b) = 0 ∨ norm2 (vsub c b) = 0 then none
  else some (Real.arccos (clip1 ((dot (vsub a b) (vsub c b) : ℝ) /
    (norm2 (vsub a b) * norm2 (vsub c b)))) * (180 / Real.pi))

lemma norm2_eq_zero_iff (v : ℚ × ℚ) : norm2 v = 0 ↔ v = (0, 0) := by
  unfold norm2
  rw [Real.sqrt_eq_zero (by positivity)]
  constructor
  · intro h
    have h1 : ((v.1 : ℝ)) ^ 2 = 0 ∧ ((v.2 : ℝ)) ^ 2 = 0 := by
      constructor <;> nlinarith [sq_nonneg (v.1 : ℝ), sq_nonneg (v.2 : ℝ)]
    have hv1 : (v.1 : ℝ) = 0 := by
      have := h1.1
      nlinarith [this]
    have hv2 : (v.2 : ℝ) = 0 := by
      have := h1.2
      nlinarith [this]
    have : v.1 = 0 := by exact_mod_cast hv1
    have : v.2 = 0 := by exact_mod_cast hv2
    cases v
    simp_all
  · intro h
    rw [h]
    norm_num

lemma vsub_eq_zero_iff (p q : ℚ × ℚ) : vsub p q = (0, 0) ↔ p = q := by
  unfold vsub
  cases p
  cases q
  simp [Prod.ext_iff]
  constructor
  · rintro ⟨h1, h2⟩
    constructor <;> linarith
  · rintro ⟨h1, h2⟩
    constructor <;> linarith

lemma dot_comm (v w : ℚ × ℚ) : dot v w = dot w v := by
  unfold dot
  ring

lemma clip1_mem (x : ℝ) : -1 ≤ clip1 x ∧ clip1 x ≤ 1 := by
  unfold clip1
  constructor
  · exact le_min (le_max_right x (-1)) (by norm_num)
  · exact min_le_right _ _

/-- C9: the vertex-angle function is symmetric in its two ray endpoints,
is undefined exactly when a ray vector has zero length (the ray endpoint
coincides with the vertex), every defined result lies in `[0, 180]` degrees,
and the cosine is clamped to `[-1, 1]` before the inverse cosine. -/
theorem claim9_angle :
    (∀ a b c, calculate_pixel_angle a b c = calculate_pixel_angle c b a) ∧
    (∀ a b c, calculate_pixel_angle a b c = none ↔ a = b ∨ c = b) ∧
    (∀ a b c θ, calculate_pixel_angle a b c = some θ → 0 ≤ θ ∧ θ ≤ 180) ∧
    (∀ x, -1 ≤ clip1 x ∧ clip1 x ≤ 1) := by
  refine ⟨?_, ?_, ?_, clip1_mem⟩
  · intro a b c
    unfold calculate_pixel_angle
    by_cases h : norm2 (vsub a b) = 0 ∨ norm2 (vsub c b) = 0
    · rw [if_pos h, if_pos (Or.symm h)]
    · rw [if_neg h, if_neg (fun hc => h (Or.symm hc))]
      rw [dot_comm (vsub c b) (vsub a b), mul_comm (norm2 (vsub c b)) (norm2 (vsub a b))]
  · intro a b c
    unfold calculate_pixel_angle
    by_cases h : norm2 (vsub a b) = 0 ∨ norm2 (vsub c b) = 0
    · rw [if_pos h]
      simp only [true_iff]
      rcases h with h | h
      · exact Or.inl ((vsub_eq_zero_iff a b).mp ((norm2_eq_zero_iff _).mp h))
      · exact Or.inr ((vsub_eq_zero_iff c b).mp ((norm2_eq_zero_iff _).mp h))
    · rw [if_neg h]
      simp only [reduceCtorEq, false_iff]
      intro hc
      apply h
      rcases hc with hc | hc
      · exact Or.inl ((norm2_eq_zero_iff _).mpr ((vsub_eq_zero_iff a b).mpr hc))
      · exact Or.inr ((norm2_eq_zero_iff _).mpr ((vsub_eq_zero_iff c b).mpr hc))
  · intro a b c θ h
    unfold calculate_pixel_angle at h
    by_cases hz : norm2 (vsub a b) = 0 ∨ norm2 (vsub c b) = 0
    · rw [if_pos hz] at h
      exact absurd h (by simp)
    · rw [if_neg hz] at h
      have hθ : θ = Real.arccos (clip1 ((dot (vsub a b) (vsub c b) : ℝ) /
          (norm2 (vsub a b) * norm2 (vsub c b)))) * (180 / Real.pi) := by
        injection h with h
        exact h.symm
      have hpos : (0 : ℝ) < 180 / Real.pi := by positivity
      constructor
      · rw [hθ]
        exact mul_nonneg (Real.arccos_nonneg _) (le_of_lt hpos)
      · rw [hθ]
        calc Real.arccos (clip1 ((dot (vsub a b) (vsub c b) : ℝ) /
                (norm2 (vsub a b) * norm2 (vsub c b)))) * (180 / Real.pi)
            ≤ Real.pi * (180 / Real.pi) := by
              exact mul_le_mul_of_nonneg_right (Real.arccos_le_pi _) (le_of_lt hpos)
          _ = 180 := by
              field_simp

/-- Witness for C9 at a concrete right angle: the rays from the origin towards
`(1, 0)` and `(0, 1)` span exactly 90 degrees, which lies in `[0, 180]`. -/
theorem claim9_angle_witness :
    calculate_pixel_angle (1, 0) (0, 0) (0, 1) = some 90 ∧
    (0 : ℝ) ≤ 90 ∧ (90 : ℝ) ≤ 180 := by
  have heval : calculate_pixel_angle (1, 0) (0, 0) (0, 1) = some 90 := by
    unfold calculate_pixel_angle
    have hab : vsub (1, 0) (0, 0) = ((1 : ℚ), (0 : ℚ)) := by
      unfold vsub
      norm_num
    have hcb : vsub (0, 1) (0, 0) = ((0 : ℚ), (1 : ℚ)) := by
      unfold vsub
      norm_num
    rw [hab, hcb]
    have h1 : norm2 ((1 : ℚ), (0 : ℚ)) = 1 := by
      unfold norm2
      norm_num
    have h2 : norm2 ((0 : ℚ), (1 : ℚ)) = 1 := by
      unfold norm2
      norm_num
    rw [h1, h2]
    rw [if_neg (by norm_num)]
    have hdot : dot ((1 : ℚ), (0 : ℚ)) ((0 : ℚ), (1 : ℚ)) = 0 := by
      unfold dot
      norm_num
    rw [hdot]
    have hclip : clip1 ((0 : ℚ) / (1 * 1) : ℝ) = 0 := by
      unfold clip1
      norm_num
    rw [show (((0 : ℚ) : ℝ)) / (1 * 1) = ((0 : ℚ) / (1 * 1) : ℝ) by push_cast; ring]
    rw [hclip, Real.arccos_zero]
    congr 1
    have : Real.pi ≠ 0 := Real.pi_ne_zero
    field_simp
    ring
  exact ⟨heval, (claim9_angle.2.2.1 _ _ _ 90 heval).1, (claim9_angle.2.2.1 _ _ _ 90 heval).2⟩

/-! ### Landing-frame detector (kinematicsModule.py, detect_landing_frame) -/

/-- Embedding of `detect_landing_frame(pose_sequence, release_frame, back_offset=9)`:
locate the first sequence position whose frame number equals `release_frame`,
step back `back_offset` positions in sequence order, and return the frame
number stored there; `None` when the release frame is absent or the earlier
position would be negative. -/
def detect_landing_frame (ps : List PoseItem) (release_frame : ℕ)
    (back_offset : ℕ := 9) : Option ℕ :=
  match ps.findIdx? (fun item => item.frame == release_frame) with
  | none => none
  | some candidate_index =>
    if candidate_index < back_offset then none
    else (ps.get? (candidate_index - back_offset)).map PoseItem.frame

/-- Spec-side description: `i` is the position of the first element of `ps`
carrying frame number `r`. -/
def isFirstMatchIdx (ps : List PoseItem) (r : ℕ) (i : ℕ) : Prop :=
  (ps.get? i).map PoseItem.frame = some r ∧
  ∀ j, j < i → (ps.get? j).map PoseItem.frame ≠ some r

lemma findIdx?_frame_iff (ps : List PoseItem) (r i : ℕ) :
    ps.findIdx? (fun item => item.frame == r) = some i ↔ isFirstMatchIdx ps r i := by
  rw [List.findIdx?_eq_some_iff_getElem]
  unfold isFirstMatchIdx
  constructor
  · rintro ⟨h, hp, hmin⟩
    refine ⟨?_, ?_⟩
    · rw [List.get?_eq_getElem?, List.getElem?_eq_getElem h]
      simpa using hp
    · intro j hj
      have hjlen : j < ps.length := Nat.lt_trans hj h
      rw [List.get?_eq_getElem?, List.getElem?_eq_getElem hjlen]
      have := hmin j hj
      simpa using this
  · rintro ⟨hp, hmin⟩
    have h : i < ps.length := by
      by_contra hlen
      rw [List.get?_eq_getElem?, List.getElem?_eq_none (by omega)] at hp
      exact absurd hp (by simp)
    refine ⟨h, ?_, ?_⟩
    · rw [List.get?_eq_getElem?, List.getElem?_eq_getElem h] at hp
      simpa using hp
    · intro j hj
      have hjlen : j < ps.length := Nat.lt_trans hj h
      have := hmin j hj
      rw [List.get?_eq_getElem?, List.getElem?_eq_getElem hjlen] at this
      simpa using this

/-- C5: the landing detector returns the frame number of the element
9 positions earlier in sequence order than the position of the release
frame — that position being resolved by matching the release frame's
number — and returns not-found exactly when the release frame is absent
from the sequence or the earlier position would be negative. -/
lemma detect_landing_of_findIdx_none {ps : List PoseItem} {r : ℕ}
    (h : ps.findIdx? (fun item => item.frame == r) = none) :
    detect_landing_frame ps r = none := by
  unfold detect_landing_frame
  rw [h]

lemma detect_landing_of_findIdx_some {ps : List PoseItem} {r i : ℕ}
    (h : ps.findIdx? (fun item => item.frame == r) = some i) :
    detect_landing_frame ps r =
      if i < 9 then none else (ps.get? (i - 9)).map PoseItem.frame := by
  unfold detect_landing_frame
  rw [h]

lemma isFirstMatchIdx_unique {ps : List PoseItem} {r i i' : ℕ}
    (h : isFirstMatchIdx ps r i) (h' : isFirstMatchIdx ps r i') : i' = i := by
  rcases Nat.lt_trichotomy i' i with hc | hc | hc
  · exact absurd h'.1 (h.2 i' hc)
  · exact hc
  · exact absurd h.1 (h'.2 i hc)

/-- C5: the landing detector returns the frame number of the element
9 positions earlier in sequence order than the position of the release
frame — that position being resolved by matching the release frame's
number — and returns not-found exactly when the release frame is absent
from the sequence or the earlier position would be negative. -/
theorem claim5_landing (ps : List PoseItem) (r : ℕ) :
    (∀ f, detect_landing_frame ps r = some f ↔
      ∃ i, isFirstMatchIdx ps r i ∧ 9 ≤ i ∧
        (ps.get? (i - 9)).map PoseItem.frame = some f) ∧
    (detect_landing_frame ps r = none ↔
      (∀ item ∈ ps, item.frame ≠ r) ∨ ∃ i, isFirstMatchIdx ps r i ∧ i < 9) := by
  constructor
  · intro f
    cases hidx : ps.findIdx? (fun item => item.frame == r) with
    | none =>
      rw [detect_landing_of_findIdx_none hidx]
      simp only [List.findIdx?_eq_none_iff] at hidx
      simp only [reduceCtorEq, false_iff]
      rintro ⟨i, hi, _, _⟩
      have hfst := hi.1
      cases hg : ps.get? i with
      | none => rw [hg] at hfst; exact absurd hfst (by simp)
      | some item =>
        rw [hg] at hfst
        have hmem : item ∈ ps := List.get?_mem hg
        have heq : item.frame = r := by simpa using hfst
        have := hidx item hmem
        rw [heq] at this
        simp at this
    | some i =>
      rw [detect_landing_of_findIdx_some hidx]
      rw [findIdx?_frame_iff] at hidx
      by_cases hlt : i < 9
      · rw [if_pos hlt]
        simp only [reduceCtorEq, false_iff]
        rintro ⟨i', hi', hge, _⟩
        have := isFirstMatchIdx_unique hidx hi'
        omega
      · rw [if_neg hlt]
        constructor
        · intro h
          exact ⟨i, hidx, by omega, h⟩
        · rintro ⟨i', hi', hge, hf⟩
          have : i' = i := isFirstMatchIdx_unique hidx hi'
          subst this
          exact hf
  · cases hidx : ps.findIdx? (fun item => item.frame == r) with
    | none =>
      rw [detect_landing_of_findIdx_none hidx]
      simp only [List.findIdx?_eq_none_iff] at hidx
      simp only [true_iff]
      left
      intro item hmem
      have := hidx item hmem
      simpa using this
    | some i =>
      rw [detect_landing_of_findIdx_some hidx]
      rw [findIdx?_frame_iff] at hidx
      by_cases hlt : i < 9
      · rw [if_pos hlt]
        simp only [true_iff]
        exact Or.inr ⟨i, hidx, hlt⟩
      · rw [if_neg hlt]
        have hget : ∃ item, ps.get? (i - 9) = some item := by
          have hfst := hidx.1
          cases hg : ps.get? i with
          | none => rw [hg] at hfst; exact absurd hfst (by simp)
          | some item =>
            have hlen : i < ps.length := by
              by_contra hc
              rw [List.get?_eq_getElem?, List.getElem?_eq_none (by omega)] at hg
              exact absurd hg (by simp)
            have hsub : i - 9 < ps.length := by omega
            rw [List.get?_eq_getElem?, List.getElem?_eq_getElem hsub]
            exact ⟨_, rfl⟩
        rcases hget with ⟨item, hitem⟩
        rw [hitem]
        simp only [Option.map_some', reduceCtorEq, false_iff]
        push_neg
        constructor
        · have hfst := hidx.1
          cases hg : ps.get? i with
          | none => rw [hg] at hfst; exact absurd hfst (by simp)
          | some item' =>
            rw [hg] at hfst
            have hmem : item' ∈ ps := List.get?_mem hg
            have : item'.frame = r := by simpa using hfst
            exact ⟨item', hmem, this⟩
        · intro i' hi'
          have := isFirstMatchIdx_unique hidx hi'
          omega

/-- A default keypoint set for witnesses whose geometry is irrelevant. -/
def kpZero : Keypoints := fun _ => ⟨0, 0, 1⟩

/-- Concrete 10-frame pose sequence, frames 0 through 9, for the C5 witness. -/
def ps5w : List PoseItem :=
  [⟨0, kpZero⟩, ⟨1, kpZero⟩, ⟨2, kpZero⟩, ⟨3, kpZero⟩, ⟨4, kpZero⟩,
   ⟨5, kpZero⟩, ⟨6, kpZero⟩, ⟨7, kpZero⟩, ⟨8, kpZero⟩, ⟨9, kpZero⟩]

/-- Witness for C5: on frames 0..9 with release frame 9 (sequence position 9),
the detector lands on position 0, i.e. frame 0, and the characterization of
claim5_landing instantiates there. -/
theorem claim5_landing_witness :
    detect_landing_frame ps5w 9 = some 0 ∧
    ∃ i, isFirstMatchIdx ps5w 9 i ∧ 9 ≤ i ∧
      (ps5w.get? (i - 9)).map PoseItem.frame = some 0 := by
  have h : detect_landing_frame ps5w 9 = some 0 := by rfl
  exact ⟨h, ((claim5_landing ps5w 9).1 0).mp h⟩

/-! ### Ball-quality feature vectorization (ballClassification.py) -/

/-- One entry of the ball-detection result list `ball_json['results']`:
a frame index together with an optional bounding box, the box being a list
of optional coordinates. -/
abbrev BallEntry := ℕ × Option (List (Option ℚ))

/-- The per-frame center computation of `classify_ball_quality`: when the
entry's box is a list of exactly 4 non-null coordinates `[x1, y1, x2, y2]`,
the center `((x1+x2)/2, (y1+y2)/2)`; otherwise the pair `(None, None)`. -/
def ballCenter (e : BallEntry) : Option ℚ × Option ℚ :=
  match e.2 with
  | some [some x1, some y1, some x2, some y2] =>
    (some ((x1 + x2) / 2), some ((y1 + y2) / 2))
  | _ => (none, none)

/-- Embedding of the vectorization part of `classify_ball_quality`: collect
per-frame centers in input order, pad both coordinate lists with `None` up to
`target_length`, then truncate to exactly `target_length`. -/
def classify_ball_vector (results : List BallEntry) (target_length : ℕ := 239) :
    List (Option ℚ) × List (Option ℚ) :=
  let centers := results.foldl (fun acc e => acc ++ [ballCenter e])
    ([] : List (Option ℚ × Option ℚ))
  let x_list := centers.map Prod.fst
  let y_list := centers.map Prod.snd
  let x_list := x_list ++ List.replicate (target_length - x_list.length) none
  let y_list := y_list ++ List.replicate (target_length - y_list.length) none
  (x_list.take target_length, y_list.take target_length)

lemma foldl_append_singleton_eq_map {α β : Type} (f : α → β) :
    ∀ (l : List α) (init : List β),
      l.foldl (fun acc x => acc ++ [f x]) init = init ++ l.map f := by
  intro l
  induction l with
  | nil => intro init; simp
  | cons x xs ih =>
    intro init
    simp only [List.foldl_cons, List.map_cons]
    rw [ih]
    simp

lemma classify_ball_vector_eq (results : List BallEntry) :
    classify_ball_vector results =
      ((results.map (fun e => (ballCenter e).1) ++
          List.replicate (239 - results.length) none).take 239,
       (results.map (fun e => (ballCenter e).2) ++
          List.replicate (239 - results.length) none).take 239) := by
  unfold classify_ball_vector
  rw [foldl_append_singleton_eq_map]
  simp only [List.nil_append, List.map_map, List.length_map]
  rfl

/-- C6: the vectorizer outputs exactly 239 x-values and 239 y-values;
the first `min k 239` of them are the per-frame centers in input order
(`k` being the number of input entries), the positions from `k` on are
explicit nulls, and entries beyond the first 239 are discarded. -/
theorem claim6_ball (results : List BallEntry) :
    (classify_ball_vector results).1.length = 239 ∧
    (classify_ball_vector results).2.length = 239 ∧
    (∀ i e, results.get? i = some e → i < 239 →
      (classify_ball_vector results).1.get? i = some (ballCenter e).1 ∧
      (classify_ball_vector results).2.get? i = some (ballCenter e).2) ∧
    (∀ i, results.length ≤ i → i < 239 →
      (classify_ball_vector results).1.get? i = some none ∧
      (classify_ball_vector results).2.get? i = some none) := by
  rw [classify_ball_vector_eq]
  have hlen : ∀ (l : List (Option ℚ)), l.length = results.length →
      ((l ++ List.replicate (239 - results.length) (none : Option ℚ)).take 239).length = 239 := by
    intro l hl
    rw [List.length_take, List.length_append, List.length_replicate, hl]
    omega
  refine ⟨hlen _ (by simp), hlen _ (by simp), ?_, ?_⟩
  · intro i e hget hi
    have hilen : i < results.length := by
      by_contra hc
      rw [List.get?_eq_getElem?, List.getElem?_eq_none (by omega)] at hget
      exact absurd hget (by simp)
    constructor <;>
    · rw [List.get?_eq_getElem?, List.getElem?_take_of_lt hi,
        List.getElem?_append_left (by simpa using hilen), List.getElem?_map,
        ← List.get?_eq_getElem?, hget]
      rfl
  · intro i hki hi
    constructor <;>
    · rw [List.get?_eq_getElem?, List.getElem?_take_of_lt hi,
        List.getElem?_append_right (by simpa using hki), List.getElem?_replicate]
      simp only [List.length_map]
      rw [if_pos (by omega)]

/-- Witness for C6 at a concrete input: one valid box, one malformed entry,
giving 2 computed centers followed by 237 nulls. -/
theorem claim6_ball_witness :
    ((0, some [some 1, some 2, some 3, some 4]) : BallEntry) =
      (0, some [some 1, some 2, some 3, some 4]) ∧
    (classify_ball_vector [(0, some [some 1, some 2, some 3, some 4]), (1, none)]).1.get? 0 =
      some (some 2) ∧
    (classify_ball_vector [(0, some [some 1, some 2, some 3, some 4]), (1, none)]).1.get? 1 =
      some none ∧
    (classify_ball_vector [(0, some [some 1, some 2, some 3, some 4]), (1, none)]).1.get? 2 =
      some none ∧
    (classify_ball_vector [(0, some [some 1, some 2, some 3, some 4]), (1, none)]).1.length = 239 := by
  have h := claim6_ball [(0, some [some 1, some 2, some 3, some 4]), (1, none)]
  refine ⟨rfl, ?_, ?_, ?_, h.1⟩
  · have := (h.2.2.1 0 (0, some [some 1, some 2, some 3, some 4]) (by rfl) (by norm_num)).1
    rw [this]
    norm_num [ballCenter]
  · have := (h.2.2.1 1 (1, none) (by rfl) (by norm_num)).1
    rw [this]
    rfl
  · exact (h.2.2.2 2 (by norm_num) (by norm_num)).1

/-! ### Comparison scorer (services.py, calculate_score_from_comparison) -/

/-- A JSON-like dictionary of named optional numbers, in insertion order
(used both for one subject's feature record and for one feature's statistics
inside a profile). -/
abbrev FeatureDict := List (String × Option ℝ)

/-- A statistical profile as consumed by the scorer: feature name → statistics
dictionary. -/
abbrev ProfileData := List (String × FeatureDict)

/-- Python `str.lower()`: lowercase every character. -/
def pyLower (s : String) : String := ⟨s.data.map Char.toLower⟩

/-- The per-feature score of the scorer: `max(0, 100 - z_score * 25)` with
`z_score = abs((user_value - mean) / std)`. -/
noncomputable def featureScore (user_value mean std : ℝ) : ℝ :=
  max 0 (100 - |(user_value - mean) / std| * 25)

/-- Python `int(x)`: truncation toward zero. -/
noncomputable def intTrunc (x : ℝ) : ℤ := if 0 ≤ x then ⌊x⌋ else -⌊-x⌋

/-- The loop body of `calculate_score_from_comparison`: look the feature up in
the profile under the lowercased key, skip it unless the stats entry is
non-empty, the subject value is non-null, and the stats contain a non-null
mean and a non-null, non-zero std; otherwise accumulate its score. -/
noncomputable def scoreStep (profile_data : ProfileData) (tc : ℝ × ℕ)
    (kv : String × Option ℝ) : ℝ × ℕ :=
  match List.lookup (pyLower kv.1) profile_data with
  | none => tc
  | some profile_stats =>
    if profile_stats.isEmpty then tc
    else match kv.2 with
      | none => tc
      | some user_value =>
        match (List.lookup "mean" profile_stats).join,
              (List.lookup "std" profile_stats).join with
        | some mean, some std =>
          if std = 0 then tc
          else (tc.1 + featureScore user_value mean std, tc.2 + 1)
        | some _, none => tc
        | none, _ => tc

/-- Embedding of `calculate_score_from_comparison(features, profile_data)`:
0 for an empty profile, otherwise the integer-truncated arithmetic mean of
the accumulated per-feature scores, 0 when no feature was comparable. -/
noncomputable def calculate_score_from_comparison (features : FeatureDict)
    (profile_data : ProfileData) : ℤ :=
  if profile_data.isEmpty then 0
  else
    let acc := features.foldl (scoreStep profile_data) (0, 0)
    if acc.2 = 0 then 0 else intTrunc (acc.1 / (acc.2 : ℝ))

/-- Spec-side description of one comparable feature: the subject value is
non-null, the profile has a non-empty stats entry under the lowercased key,
and the stats contain a non-null mean and a non-null, non-zero std. -/
noncomputable def comparableEntry (profile_data : ProfileData)
    (kv : String × Option ℝ) : Option (ℝ × ℝ × ℝ) :=
  match List.lookup (pyLower kv.1) profile_data with
  | none => none
  | some stats =>
    if stats.isEmpty then none
    else match kv.2 with
      | none => none
      | some v =>
        match (List.lookup "mean" stats).join, (List.lookup "std" stats).join with
        | some m, some s => if s = 0 then none else some (v, m, s)
        | some _, none => none
        | none, _ => none

/-- The subject/profile pairs that are actually scored, in feature order. -/
noncomputable def comparables (features : FeatureDict) (profile_data : ProfileData) :
    List (ℝ × ℝ × ℝ) :=
  features.filterMap (comparableEntry profile_data)

lemma scoreStep_eq (profile_data : ProfileData) (tc : ℝ × ℕ) (kv : String × Option ℝ) :
    scoreStep profile_data tc kv =
      match comparableEntry profile_data kv with
      | none => tc
      | some (v, m, s) => (tc.1 + featureScore v m s, tc.2 + 1) := by
  unfold scoreStep comparableEntry
  cases List.lookup (pyLower kv.1) profile_data with
  | none => rfl
  | some stats =>
    by_cases h2 : stats.isEmpty
    · simp [h2]
    · simp only [Bool.not_eq_true] at h2
      simp only [h2, Bool.false_eq_true, if_false]
      cases kv.2 with
      | none => rfl
      | some v =>
        cases hm : (List.lookup "mean" stats).join with
        | none => rfl
        | some m =>
          cases hs : (List.lookup "std" stats).join with
          | none => rfl
          | some s =>
            by_cases hz : s = 0
            · simp [hz]
            · simp [hz]

lemma foldl_scoreStep (profile_data : ProfileData) :
    ∀ (features : FeatureDict) (tc : ℝ × ℕ),
      features.foldl (scoreStep profile_data) tc =
        (tc.1 + ((comparables features profile_data).map
            (fun t => featureScore t.1 t.2.1 t.2.2)).sum,
         tc.2 + (comparables features profile_data).length) := by
  intro features
  induction features with
  | nil =>
    intro tc
    simp [comparables]
  | cons kv rest ih =>
    intro tc
    simp only [List.foldl_cons]
    rw [scoreStep_eq]
    cases h : comparableEntry profile_data kv with
    | none =>
      rw [ih]
      simp [comparables, List.filterMap_cons, h]
    | some t =>
      obtain ⟨v, m, s⟩ := t
      rw [ih]
      simp only [comparables, List.filterMap_cons, h, List.map_cons, List.sum_cons,
        List.length_cons]
      rw [Prod.ext_iff]
      constructor
      · ring
      · simp only []
        omega

lemma score_eq_characterization (features : FeatureDict) (profile_data : ProfileData) :
    calculate_score_from_comparison features profile_data =
      if comparables features profile_data = [] then 0
      else intTrunc ((((comparables features profile_data).map
          (fun t => featureScore t.1 t.2.1 t.2.2)).sum) /
        ((comparables features profile_data).length : ℝ)) := by
  unfold calculate_score_from_comparison
  by_cases hp : profile_data.isEmpty
  · have hpl : profile_data = [] := by
      cases profile_data with
      | nil => rfl
      | cons a l => simp [List.isEmpty] at hp
    have hc : comparables features profile_data = [] := by
      subst hpl
      unfold comparables
      have : ∀ kv, comparableEntry ([] : ProfileData) kv = none := by
        intro kv
        unfold comparableEntry
        rfl
      simp [List.filterMap_eq_nil_iff, this]
    simp [hp, hc]
  · simp only [Bool.not_eq_true] at hp
    simp only [hp, Bool.false_eq_true, if_false]
    rw [foldl_scoreStep]
    simp only [zero_add]
    by_cases hc : comparables features profile_data = []
    · simp [hc]
    · rw [if_neg hc, if_neg (by simpa [List.length_eq_zero] using hc)]

/-- C1: for every subject feature record and profile, the score equals the
integer-truncated arithmetic mean of the per-feature scores
`max(0, 100 - 25 * abs((value - mean) / std))` over exactly the features that
are non-null in the subject and carried by the profile with non-null mean and
non-zero std, and it is 0 when no feature is comparable (in particular for an
empty profile); a value equal to the profile mean contributes exactly 100 and
a deviation of exactly four standard deviations contributes exactly 0. -/
theorem claim1_scorer :
    (∀ features profile_data,
      calculate_score_from_comparison features profile_data =
        if comparables features profile_data = [] then 0
        else intTrunc ((((comparables features profile_data).map
            (fun t => featureScore t.1 t.2.1 t.2.2)).sum) /
          ((comparables features profile_data).length : ℝ))) ∧
    (∀ v s, featureScore v v s = 100) ∧
    (∀ v m s, s ≠ 0 → |v - m| = 4 * |s| → featureScore v m s = 0) := by
  refine ⟨score_eq_characterization, ?_, ?_⟩
  · intro v s
    unfold featureScore
    rw [sub_self, zero_div, abs_zero, zero_mul, sub_zero]
    norm_num
  · intro v m s hs h4
    unfold featureScore
    rw [abs_div, h4]
    have habs : |s| ≠ 0 := fun hc => hs (abs_eq_zero.mp hc)
    rw [mul_div_assoc, div_self habs, mul_one]
    norm_num

/-- Witness for C1: a concrete subject two standard deviations from the mean
scores 50; a value equal to the mean gives a per-feature score of 100; a
deviation of exactly four standard deviations gives 0. -/
theorem claim1_scorer_witness :
    calculate_score_from_comparison
      [("Trunk_flexion_excursion", some 23), ("release_frame", none)]
      [("trunk_flexion_excursion", [("mean", some 19), ("std", some 2)])] = 50 ∧
    featureScore 19 19 2 = 100 ∧
    ((2 : ℝ) ≠ 0 ∧ |(27 : ℝ) - 19| = 4 * |(2 : ℝ)| ∧ featureScore 27 19 2 = 0) := by
  refine ⟨?_, claim1_scorer.2.1 19 2,
    by norm_num, by rw [abs_of_nonneg (by norm_num : (0:ℝ) ≤ 2)]; norm_num,
    claim1_scorer.2.2 27 19 2 (by norm_num)
      (by rw [abs_of_nonneg (by norm_num : (0:ℝ) ≤ 2)]; norm_num)⟩
  rw [claim1_scorer.1]
  have hlow : pyLower "Trunk_flexion_excursion" = "trunk_flexion_excursion" := by decide
  have hlow2 : pyLower "release_frame" = "release_frame" := by decide
  have hc : comparables
      [("Trunk_flexion_excursion", some 23), ("release_frame", none)]
      [("trunk_flexion_excursion", [("mean", some 19), ("std", some 2)])] =
      [(23, 19, 2)] := by
    unfold comparables
    simp only [List.filterMap_cons, List.filterMap_nil]
    have h1 : comparableEntry
        [("trunk_flexion_excursion", [("mean", some 19), ("std", some 2)])]
        ("Trunk_flexion_excursion", some 23) = some (23, 19, 2) := by
      unfold comparableEntry
      rw [hlow]
      simp [List.lookup, if_neg (by norm_num : ¬(2:ℝ) = 0)]
    have h2 : comparableEntry
        [("trunk_flexion_excursion", [("mean", some 19), ("std", some 2)])]
        ("release_frame", none) = none := by
      unfold comparableEntry
      rw [hlow2]
      simp [List.lookup]
    rw [h1, h2]
  rw [hc]
  have hfs : featureScore 23 19 2 = 50 := by
    unfold featureScore
    rw [show (23:ℝ) - 19 = 4 by norm_num]
    rw [show (4:ℝ)/2 = 2 by norm_num]
    rw [abs_of_nonneg (by norm_num : (0:ℝ) ≤ 2)]
    norm_num
  simp only [List.map_cons, List.map_nil, List.sum_cons, List.sum_nil, List.length_cons,
    List.length_nil]
  rw [if_neg (by simp)]
  rw [hfs]
  norm_num
  unfold intTrunc
  rw [if_pos (by norm_num : (0:ℝ) ≤ 50)]
  have : ⌊(50 : ℝ)⌋ = 50 := by norm_num
  rw [this]

/-! ### Statistical profile builder (buildModel.py, create_pitch_profile) -/

/-- The 10 recognized feature column names of buildModel.py, in source order. -/
def feature_columns : List String :=
  ["trunk_flexion_excursion", "pelvis_obliquity_at_fc", "trunk_rotation_at_br",
   "shoulder_abduction_at_br", "trunk_flexion_at_br", "trunk_lateral_flexion_at_hs",
   "release_frame", "landing_frame", "shoulder_frame", "total_frames"]

/-- The column of a DataFrame built from the records, after `dropna()`:
the non-null values stored under `col` in record order (records without the
key contribute a NaN that `dropna` removes as well). -/
def validValues (features_data : List FeatureDict) (col : String) : List ℝ :=
  features_data.filterMap (fun record => (List.lookup col record).join)

/-- Linear-interpolation quantile of an ascending list, as computed by
`pandas.Series.quantile(q)` (Hyndman-Fan type 7, the pandas default): at
fractional position `q * (n - 1)`. -/
noncomputable def quantileOfSorted (xs : List ℝ) (q : ℝ) : ℝ :=
  let h := q * ((xs.length : ℝ) - 1)
  let j := (⌊h⌋).toNat
  let x0 := xs.getD j 0
  let x1 := xs.getD (j + 1) x0
  x0 + (h - (j : ℝ)) * (x1 - x0)

/-- The `Series.quantile` call: sort the values ascending, then interpolate. -/
noncomputable def seriesQuantile (vals : List ℝ) (q : ℝ) : ℝ :=
  quantileOfSorted (vals.insertionSort (· ≤ ·)) q

/-- The `Series.mean` call. -/
noncomputable def seriesMean (vals : List ℝ) : ℝ := vals.sum / (vals.length : ℝ)

/-- The `Series.std` call: sample standard deviation (ddof = 1). -/
noncomputable def seriesStd (vals : List ℝ) : ℝ :=
  Real.sqrt ((vals.map (fun x => (x - seriesMean vals) ^ 2)).sum / ((vals.length : ℝ) - 1))

/-- Python `round(x)` to an integer: round half to even. -/
noncomputable def roundHalfEven (x : ℝ) : ℤ :=
  if x - (⌊x⌋ : ℝ) < 1 / 2 then ⌊x⌋
  else if (1 : ℝ) / 2 < x - (⌊x⌋ : ℝ) then ⌊x⌋ + 1
  else if Even ⌊x⌋ then ⌊x⌋ else ⌊x⌋ + 1

/-- Python `round(x, 4)`: round half to even at the fourth decimal place. -/
noncomputable def round4 (x : ℝ) : ℝ := ((roundHalfEven (x * 10000) : ℤ) : ℝ) / 10000

/-- The statistics dictionary stored per feature by `create_pitch_profile`;
the `min` and `max` fields are written from the same `p10`/`p90` values. -/
structure FeatureStats where
  min : ℝ
  max : ℝ
  p10 : ℝ
  p50_median : ℝ
  p90 : ℝ
  mean : ℝ
  std : ℝ

/-- The stats block computed for one feature column of `create_pitch_profile`. -/
noncomputable def mkStats (valid_values : List ℝ) : FeatureStats :=
  { min := round4 (seriesQuantile valid_values (1 / 10)),
    max := round4 (seriesQuantile valid_values (9 / 10)),
    p10 := round4 (seriesQuantile valid_values (1 / 10)),
    p50_median := round4 (seriesQuantile valid_values (1 / 2)),
    p90 := round4 (seriesQuantile valid_values (9 / 10)),
    mean := round4 (seriesMean valid_values),
    std := round4 (seriesStd valid_values) }

/-- The loop body of `create_pitch_profile`: skip a column absent from the
DataFrame, skip a column with fewer than 2 valid values, otherwise append its
stats block to the profile. -/
noncomputable def profileStep (features_data : List FeatureDict)
    (profile : List (String × FeatureStats)) (col_name : String) :
    List (String × FeatureStats) :=
  if ¬ features_data.any (fun record => (List.lookup col_name record).isSome) then profile
  else
    if (validValues features_data col_name).length < 2 then profile
    else profile ++ [(col_name, mkStats (validValues features_data col_name))]

/-- Embedding of `create_pitch_profile(features_data)`: an empty mapping for
an empty input collection, otherwise one stats block per recognized feature
column with at least 2 valid values. -/
noncomputable def create_pitch_profile (features_data : List FeatureDict) :
    List (String × FeatureStats) :=
  if features_data.isEmpty then []
  else feature_columns.foldl (profileStep features_data) []

/-- Serialization of a stats block into the JSON-like dictionary the scorer
reads back from the database, in the key order of buildModel.py. -/
noncomputable def statsAsDict (s : FeatureStats) : FeatureDict :=
  [("min", some s.min), ("max", some s.max), ("p10", some s.p10),
   ("p50_median", some s.p50_median), ("p90", some s.p90),
   ("mean", some s.mean), ("std", some s.std)]

lemma lookup_singleton_ne {β : Type} {col c : String} (v : β) (hne : c ≠ col) :
    List.lookup col [(c, v)] = none := by
  rw [List.lookup_cons]
  have : (col == c) = false := by
    rw [beq_eq_false_iff_ne]
    exact fun h => hne h.symm
  simp [this]

lemma lookup_profileStep {d : List FeatureDict} {init : List (String × FeatureStats)}
    {c col : String} (hne : c ≠ col) :
    List.lookup col (profileStep d init c) = List.lookup col init := by
  unfold profileStep
  by_cases h1 : ¬ d.any (fun record => (List.lookup c record).isSome)
  · rw [if_pos h1]
  · rw [if_neg h1]
    by_cases h2 : (validValues d c).length < 2
    · rw [if_pos h2]
    · rw [if_neg h2]
      rw [List.lookup_append, lookup_singleton_ne _ hne, Option.or_none]

lemma lookup_foldl_profileStep_not_mem {d : List FeatureDict} :
    ∀ (cols : List String) (init : List (String × FeatureStats)) (col : String),
      col ∉ cols →
      List.lookup col (cols.foldl (profileStep d) init) = List.lookup col init := by
  intro cols
  induction cols with
  | nil => intro init col _; rfl
  | cons c rest ih =>
    intro init col hnm
    simp only [List.foldl_cons]
    rw [ih _ _ (fun h => hnm (List.mem_cons_of_mem c h))]
    exact lookup_profileStep (fun h => hnm (h ▸ List.mem_cons_self c rest))

lemma validValues_any_of_two_le {d : List FeatureDict} {col : String}
    (h : 2 ≤ (validValues d col).length) :
    d.any (fun record => (List.lookup col record).isSome) = true := by
  have hne : validValues d col ≠ [] := by
    intro hc
    rw [hc] at h
    simp at h
  unfold validValues at hne
  rcases List.exists_mem_of_ne_nil _ hne with ⟨x, hx⟩
  rcases List.mem_filterMap.mp hx with ⟨record, hrec, hjoin⟩
  rw [List.any_eq_true]
  refine ⟨record, hrec, ?_⟩
  cases hl : List.lookup col record with
  | none => rw [hl] at hjoin; exact absurd hjoin (by simp [Option.join])
  | some o =>
    rfl

lemma lookup_foldl_profileStep_mem {d : List FeatureDict} :
    ∀ (cols : List String) (init : List (String × FeatureStats)) (col : String),
      col ∈ cols → cols.Nodup → (∀ e ∈ init, e.1 ≠ col) →
      List.lookup col (cols.foldl (profileStep d) init) =
        if 2 ≤ (validValues d col).length then some (mkStats (validValues d col))
        else none := by
  intro cols
  induction cols with
  | nil => intro init col h; exact absurd h (List.not_mem_nil col)
  | cons c rest ih =>
    intro init col hmem hnd hinit
    simp only [List.foldl_cons]
    rcases List.mem_cons.mp hmem with heq | hrest
    · subst heq
      have hnotrest : col ∉ rest := (List.nodup_cons.mp hnd).1
      rw [lookup_foldl_profileStep_not_mem rest _ col hnotrest]
      have hinitnone : List.lookup col init = none := by
        cases hl : List.lookup col init with
        | none => rfl
        | some v =>
          rcases List.lookup_eq_some_iff.mp hl with ⟨l₁, l₂, hsplit, _⟩
          have hmem' : (col, v) ∈ init := by
            rw [hsplit]
            exact List.mem_append.mpr (Or.inr (List.mem_cons_self _ _))
          exact absurd rfl (hinit _ hmem')
      unfold profileStep
      by_cases h1 : ¬ d.any (fun record => (List.lookup col record).isSome)
      · rw [if_pos h1, hinitnone]
        rw [if_neg]
        intro h2
        exact h1 (validValues_any_of_two_le h2)
      · rw [if_neg h1]
        by_cases h2 : (validValues d col).length < 2
        · rw [if_pos h2, hinitnone, if_neg (by omega)]
        · rw [if_neg h2, if_pos (by omega)]
          rw [List.lookup_append, hinitnone, Option.none_or, List.lookup_cons_self]
    · have hne : c ≠ col := by
        rintro rfl
        exact (List.nodup_cons.mp hnd).1 hrest
      refine ih _ col hrest (List.nodup_cons.mp hnd).2 ?_
      intro e he
      unfold profileStep at he
      by_cases h1 : ¬ d.any (fun record => (List.lookup c record).isSome)
      · rw [if_pos h1] at he
        exact hinit e he
      · rw [if_neg h1] at he
        by_cases h2 : (validValues d c).length < 2
        · rw [if_pos h2] at he
          exact hinit e he
        · rw [if_neg h2] at he
          rcases List.mem_append.mp he with h | h
          · exact hinit e h
          · rcases List.mem_singleton.mp h with rfl
            exact hne

/-- C4: the profile builder maps an empty collection to an empty mapping,
omits every recognized feature with fewer than 2 valid (non-null) values,
and otherwise stores a stats block whose `min` and `max` fields are exactly
the (4-decimal-rounded) 10th and 90th percentiles alongside `p10`,
`p50_median`, `p90`, `mean` and `std`, each rounded to 4 decimal places;
unrecognized names never appear in the profile. -/
theorem claim4_profile :
    (create_pitch_profile [] = []) ∧
    (∀ d col, col ∈ feature_columns →
      List.lookup col (create_pitch_profile d) =
        if 2 ≤ (validValues d col).length then some (mkStats (validValues d col))
        else none) ∧
    (∀ d col, col ∉ feature_columns → List.lookup col (create_pitch_profile d) = none) ∧
    (∀ vals, (mkStats vals).min = (mkStats vals).p10 ∧
      (mkStats vals).max = (mkStats vals).p90 ∧
      (mkStats vals).p10 = round4 (seriesQuantile vals (1 / 10)) ∧
      (mkStats vals).p90 = round4 (seriesQuantile vals (9 / 10)) ∧
      (mkStats vals).p50_median = round4 (seriesQuantile vals (1 / 2)) ∧
      (mkStats vals).mean = round4 (seriesMean vals) ∧
      (mkStats vals).std = round4 (seriesStd vals)) := by
  refine ⟨rfl, ?_, ?_, ?_⟩
  · intro d col hcol
    unfold create_pitch_profile
    by_cases hd : d.isEmpty
    · have hdl : d = [] := by
        cases d with
        | nil => rfl
        | cons a l => simp [List.isEmpty] at hd
      subst hdl
      rw [if_pos (by rfl)]
      have : validValues [] col = [] := rfl
      rw [this]
      simp [List.lookup]
    · rw [if_neg hd]
      rw [lookup_foldl_profileStep_mem feature_columns [] col hcol (by decide)
        (by intro e he; exact absurd he (List.not_mem_nil e))]
  · intro d col hcol
    unfold create_pitch_profile
    by_cases hd : d.isEmpty
    · rw [if_pos hd]; rfl
    · rw [if_neg hd]
      rw [lookup_foldl_profileStep_not_mem feature_columns [] col hcol]
      rfl
  · intro vals
    exact ⟨rfl, rfl, rfl, rfl, rfl, rfl, rfl⟩

/-- Witness for C4: two records carrying `release_frame` values 3 and 5 give
a profile entry for that column whose `min` field equals its `p10` field. -/
theorem claim4_profile_witness :
    List.lookup "release_frame"
      (create_pitch_profile [[("release_frame", some 3)], [("release_frame", some 5)]]) =
      some (mkStats (validValues [[("release_frame", some 3)], [("release_frame", some 5)]]
        "release_frame")) ∧
    (mkStats (validValues [[("release_frame", some 3)], [("release_frame", some 5)]]
      "release_frame")).min =
    (mkStats (validValues [[("release_frame", some 3)], [("release_frame", some 5)]]
      "release_frame")).p10 := by
  have hmem : "release_frame" ∈ feature_columns := by decide
  have hv : validValues [[("release_frame", some 3)], [("release_frame", some 5)]]
      "release_frame" = [(3 : ℝ), 5] := by
    unfold validValues
    simp [List.lookup]
  have h := claim4_profile.2.1 [[("release_frame", some 3)], [("release_frame", some 5)]]
    "release_frame" hmem
  rw [hv] at h
  rw [h, if_pos (by norm_num), hv]
  exact ⟨rfl, (claim4_profile.2.2.2 [(3 : ℝ), 5]).1⟩

/-! ### The worked profile example of the spec (claim C8) -/

/-- The historical values of the spec's worked example. -/
noncomputable def vals8 : List ℝ := [10, 12, 14, 16, 18, 20, 22, 24, 26, 28]

/-- One historical record per value, all under the feature
`trunk_flexion_excursion`. -/
noncomputable def records8 : List FeatureDict :=
  vals8.map (fun v => [("trunk_flexion_excursion", some v)])

lemma roundHalfEven_intCast (n : ℤ) : roundHalfEven ((n : ℤ) : ℝ) = n := by
  unfold roundHalfEven
  rw [Int.floor_intCast]
  rw [if_pos (by norm_num)]

lemma round4_rat (q : ℝ) (n : ℤ) (h : q * 10000 = ((n : ℤ) : ℝ)) : round4 q = q := by
  unfold round4
  rw [h, roundHalfEven_intCast]
  rw [← h]
  field_simp

lemma validValues_records8 :
    validValues records8 "trunk_flexion_excursion" = vals8 := by
  unfold validValues records8
  rw [List.filterMap_map]
  have : ∀ v : ℝ, ((fun record => (List.lookup "trunk_flexion_excursion" record).join) ∘
      fun v => [("trunk_flexion_excursion", some v)]) v = some v := by
    intro v
    simp [List.lookup]
  rw [List.filterMap_congr (fun v _ => this v)]
  exact List.filterMap_some vals8

lemma any_records8_ne {col : String} (h : col ≠ "trunk_flexion_excursion") :
    records8.any (fun record => (List.lookup col record).isSome) = false := by
  unfold records8
  rw [List.any_eq_false]
  intro r hr
  rcases List.mem_map.mp hr with ⟨v, _, rfl⟩
  rw [lookup_singleton_ne _ (fun hc => h hc.symm)]
  simp

lemma profileStep_records8_ne {col : String} (h : col ≠ "trunk_flexion_excursion") :
    ∀ p, profileStep records8 p col = p := by
  intro p
  unfold profileStep
  rw [if_pos]
  rw [any_records8_ne h]
  simp

lemma create_pitch_profile_records8 :
    create_pitch_profile records8 = [("trunk_flexion_excursion", mkStats vals8)] := by
  unfold create_pitch_profile
  rw [if_neg (by unfold records8 vals8; simp)]
  have hany : records8.any
      (fun record => (List.lookup "trunk_flexion_excursion" record).isSome) = true := by
    rw [List.any_eq_true]
    refine ⟨[("trunk_flexion_excursion", some (10 : ℝ))], ?_, ?_⟩
    · unfold records8 vals8
      simp
    · rw [List.lookup_cons_self]
      rfl
  have hstep1 : profileStep records8 [] "trunk_flexion_excursion" =
      [("trunk_flexion_excursion", mkStats vals8)] := by
    unfold profileStep
    rw [validValues_records8]
    rw [if_neg (by simp [hany]), if_neg]
    · simp
    · rw [show vals8.length = 10 by unfold vals8; rfl]
      omega
  show List.foldl (profileStep records8) [] feature_columns =
    [("trunk_flexion_excursion", mkStats vals8)]
  rw [show feature_columns = "trunk_flexion_excursion" ::
    ["pelvis_obliquity_at_fc", "trunk_rotation_at_br", "shoulder_abduction_at_br",
     "trunk_flexion_at_br", "trunk_lateral_flexion_at_hs", "release_frame",
     "landing_frame", "shoulder_frame", "total_frames"] from rfl]
  rw [List.foldl_cons, hstep1]
  rw [List.foldl_cons, profileStep_records8_ne (by decide) _]
  rw [List.foldl_cons, profileStep_records8_ne (by decide) _]
  rw [List.foldl_cons, profileStep_records8_ne (by decide) _]
  rw [List.foldl_cons, profileStep_records8_ne (by decide) _]
  rw [List.foldl_cons, profileStep_records8_ne (by decide) _]
  rw [List.foldl_cons, profileStep_records8_ne (by decide) _]
  rw [List.foldl_cons, profileStep_records8_ne (by decide) _]
  rw [List.foldl_cons, profileStep_records8_ne (by decide) _]
  rw [List.foldl_cons, profileStep_records8_ne (by decide) _]
  rfl

lemma sorted_vals8 : List.Sorted (· ≤ ·) vals8 := by
  unfold vals8
  norm_num [List.sorted_cons, List.mem_cons]

lemma seriesQuantile_vals8_p10 : seriesQuantile vals8 (1 / 10) = 59 / 5 := by
  unfold seriesQuantile
  rw [List.Sorted.insertionSort_eq sorted_vals8]
  simp only [quantileOfSorted]
  rw [show (vals8.length : ℝ) = 10 by unfold vals8; norm_num]
  have hfl : ⌊(1 / 10 : ℝ) * (10 - 1)⌋ = 0 := by
    rw [Int.floor_eq_zero_iff]
    constructor <;> norm_num
  rw [hfl]
  unfold vals8
  norm_num [List.getD]

lemma seriesQuantile_vals8_p90 : seriesQuantile vals8 (9 / 10) = 131 / 5 := by
  unfold seriesQuantile
  rw [List.Sorted.insertionSort_eq sorted_vals8]
  simp only [quantileOfSorted]
  rw [show (vals8.length : ℝ) = 10 by unfold vals8; norm_num]
  have hfl : ⌊(9 / 10 : ℝ) * (10 - 1)⌋ = 8 := by
    rw [Int.floor_eq_iff]
    constructor <;> norm_num
  rw [hfl]
  rw [show (8 : ℤ).toNat = 8 from rfl]
  unfold vals8
  norm_num [List.getD_cons_zero, List.getD_cons_succ]

lemma seriesQuantile_vals8_p50 : seriesQuantile vals8 (1 / 2) = 19 := by
  unfold seriesQuantile
  rw [List.Sorted.insertionSort_eq sorted_vals8]
  simp only [quantileOfSorted]
  rw [show (vals8.length : ℝ) = 10 by unfold vals8; norm_num]
  have hfl : ⌊(1 / 2 : ℝ) * (10 - 1)⌋ = 4 := by
    rw [Int.floor_eq_iff]
    constructor <;> norm_num
  rw [hfl]
  rw [show (4 : ℤ).toNat = 4 from rfl]
  unfold vals8
  norm_num [List.getD_cons_zero, List.getD_cons_succ]

lemma seriesMean_vals8 : seriesMean vals8 = 19 := by
  unfold seriesMean vals8
  norm_num

lemma seriesStd_vals8 : seriesStd vals8 = Real.sqrt (330 / 9) := by
  unfold seriesStd
  rw [seriesMean_vals8]
  congr 1
  unfold vals8
  norm_num

lemma mkStats_vals8_p10 : (mkStats vals8).p10 = 59 / 5 := by
  show round4 (seriesQuantile vals8 (1 / 10)) = 59 / 5
  rw [seriesQuantile_vals8_p10]
  exact round4_rat _ 118000 (by norm_num)

lemma mkStats_vals8_p90 : (mkStats vals8).p90 = 131 / 5 := by
  show round4 (seriesQuantile vals8 (9 / 10)) = 131 / 5
  rw [seriesQuantile_vals8_p90]
  exact round4_rat _ 262000 (by norm_num)

lemma mkStats_vals8_p50 : (mkStats vals8).p50_median = 19 := by
  show round4 (seriesQuantile vals8 (1 / 2)) = 19
  rw [seriesQuantile_vals8_p50]
  exact round4_rat _ 190000 (by norm_num)

lemma mkStats_vals8_mean : (mkStats vals8).mean = 19 := by
  show round4 (seriesMean vals8) = 19
  rw [seriesMean_vals8]
  exact round4_rat _ 190000 (by norm_num)

lemma sqrt_330_div_9_bounds :
    6 < Real.sqrt (330 / 9) ∧ Real.sqrt (330 / 9) < 61 / 10 := by
  constructor
  · have h6 : (6 : ℝ) = Real.sqrt (6 ^ 2) := (Real.sqrt_sq (by norm_num)).symm
    rw [h6]
    apply Real.sqrt_lt_sqrt (by norm_num)
    norm_num
  · rw [Real.sqrt_lt' (by norm_num)]
    norm_num

lemma mkStats_vals8_std_pos : 0 < (mkStats vals8).std := by
  show 0 < round4 (seriesStd vals8)
  rw [seriesStd_vals8]
  unfold round4
  have hb := sqrt_330_div_9_bounds
  have hge : (60000 : ℝ) ≤ Real.sqrt (330 / 9) * 10000 := by nlinarith [hb.1]
  have hfl : (60000 : ℤ) ≤ ⌊Real.sqrt (330 / 9) * 10000⌋ := by
    rw [Int.le_floor]
    exact_mod_cast hge
  have hrhe : (60000 : ℤ) ≤ roundHalfEven (Real.sqrt (330 / 9) * 10000) := by
    unfold roundHalfEven
    by_cases h1 : Real.sqrt (330 / 9) * 10000 - (⌊Real.sqrt (330 / 9) * 10000⌋ : ℝ) < 1 / 2
    · rw [if_pos h1]; exact hfl
    · rw [if_neg h1]
      by_cases h2 : (1 : ℝ) / 2 < Real.sqrt (330 / 9) * 10000 - (⌊Real.sqrt (330 / 9) * 10000⌋ : ℝ)
      · rw [if_pos h2]; omega
      · rw [if_neg h2]
        by_cases h3 : Even ⌊Real.sqrt (330 / 9) * 10000⌋
        · rw [if_pos h3]; exact hfl
        · rw [if_neg h3]; omega
  have hcast : (60000 : ℝ) ≤ ((roundHalfEven (Real.sqrt (330 / 9) * 10000) : ℤ) : ℝ) := by
    exact_mod_cast hrhe
  have hpos : (0 : ℝ) < ((roundHalfEven (Real.sqrt (330 / 9) * 10000) : ℤ) : ℝ) := by
    linarith
  exact div_pos hpos (by norm_num)

/-- Counterexample to C8: on the historical values
`[10, 12, 14, 16, 18, 20, 22, 24, 26, 28]` the profile builder's 10th
percentile is 11.8 (pandas linear interpolation at position
`0.1 * (10 - 1) = 0.9`), not the claimed 12.2, and its 90th percentile is
26.2, not the claimed 25.8. -/
theorem claim8_example_counterexample :
    (List.lookup "trunk_flexion_excursion" (create_pitch_profile records8)).map
      FeatureStats.p10 = some (59 / 5) ∧
    (59 / 5 : ℝ) = 11.8 ∧ (59 / 5 : ℝ) ≠ 12.2 ∧
    (List.lookup "trunk_flexion_excursion" (create_pitch_profile records8)).map
      FeatureStats.p90 = some (131 / 5) ∧
    (131 / 5 : ℝ) = 26.2 ∧ (131 / 5 : ℝ) ≠ 25.8 := by
  rw [create_pitch_profile_records8, List.lookup_cons_self]
  refine ⟨?_, by norm_num, by norm_num, ?_, by norm_num, by norm_num⟩
  · rw [Option.map_some', mkStats_vals8_p10]
  · rw [Option.map_some', mkStats_vals8_p90]

lemma lookup_statsAsDict_mean (s : FeatureStats) :
    (List.lookup "mean" (statsAsDict s)).join = some s.mean := by
  unfold statsAsDict
  simp [List.lookup]

lemma lookup_statsAsDict_std (s : FeatureStats) :
    (List.lookup "std" (statsAsDict s)).join = some s.std := by
  unfold statsAsDict
  simp [List.lookup]

lemma featureScore_self (v s : ℝ) : featureScore v v s = 100 := by
  unfold featureScore
  rw [sub_self, zero_div, abs_zero, zero_mul, sub_zero]
  norm_num

/-- C8 amended: on the historical values `[10, 12, 14, 16, 18, 20, 22, 24, 26, 28]`
the profile carries p10 = 11.8 and p90 = 26.2 (pandas linear interpolation, not
the claimed 12.2 and 25.8), median 19, mean 19, and std equal to the 4-decimal
rounding of the sample standard deviation `sqrt(330 / 9)`; a subject whose value
for the feature is 19 scores exactly 100 against this profile. -/
theorem claim8_example :
    ∃ stats, List.lookup "trunk_flexion_excursion" (create_pitch_profile records8) =
        some stats ∧
      stats.p10 = 11.8 ∧ stats.p90 = 26.2 ∧ stats.p50_median = 19 ∧ stats.mean = 19 ∧
      seriesStd vals8 = Real.sqrt (330 / 9) ∧ stats.std = round4 (seriesStd vals8) ∧
      calculate_score_from_comparison [("Trunk_flexion_excursion", some 19)]
        [("trunk_flexion_excursion", statsAsDict stats)] = 100 := by
  refine ⟨mkStats vals8, ?_, ?_, ?_, mkStats_vals8_p50, mkStats_vals8_mean,
    seriesStd_vals8, rfl, ?_⟩
  · rw [create_pitch_profile_records8, List.lookup_cons_self]
  · rw [mkStats_vals8_p10]; norm_num
  · rw [mkStats_vals8_p90]; norm_num
  · have hstd := mkStats_vals8_std_pos
    have hlow : pyLower "Trunk_flexion_excursion" = "trunk_flexion_excursion" := by decide
    have hentry : comparableEntry
        [("trunk_flexion_excursion", statsAsDict (mkStats vals8))]
        ("Trunk_flexion_excursion", some 19) =
        some (19, (mkStats vals8).mean, (mkStats vals8).std) := by
      simp only [comparableEntry, hlow, List.lookup_cons_self, statsAsDict,
        List.isEmpty_cons, Bool.false_eq_true, if_false]
      simp only [List.lookup, show ("mean" == "min") = false by decide,
        show ("mean" == "max") = false by decide, show ("mean" == "p10") = false by decide,
        show ("mean" == "p50_median") = false by decide, show ("mean" == "p90") = false by decide,
        show ("mean" == "mean") = true by decide, show ("std" == "min") = false by decide,
        show ("std" == "max") = false by decide, show ("std" == "p10") = false by decide,
        show ("std" == "p50_median") = false by decide, show ("std" == "p90") = false by decide,
        show ("std" == "mean") = false by decide, show ("std" == "std") = true by decide,
        Option.join, Option.some_bind, id_eq]
      rw [if_neg (by intro hc; rw [hc] at hstd; exact lt_irrefl 0 hstd)]
    have hcomp : comparables [("Trunk_flexion_excursion", some 19)]
        [("trunk_flexion_excursion", statsAsDict (mkStats vals8))] =
        [(19, (mkStats vals8).mean, (mkStats vals8).std)] := by
      unfold comparables
      rw [List.filterMap_cons, hentry]
      rfl
    rw [score_eq_characterization, hcomp]
    rw [if_neg (by simp)]
    simp only [List.map_cons, List.map_nil, List.sum_cons, List.sum_nil,
      List.length_cons, List.length_nil]
    rw [mkStats_vals8_mean, featureScore_self]
    norm_num
    unfold intTrunc
    rw [if_pos (by norm_num : (0 : ℝ) ≤ 100)]
    have : ⌊(100 : ℝ)⌋ = 100 := by norm_num
    rw [this]

/-! ### Release-frame detector (kinematicsModule.py, detect_release_frame) -/

lemma angle_eq_none_iff (a b c : ℚ × ℚ) :
    calculate_pixel_angle a b c = none ↔ a = b ∨ c = b := by
  unfold calculate_pixel_angle
  by_cases h : norm2 (vsub a b) = 0 ∨ norm2 (vsub c b) = 0
  · rw [if_pos h]
    simp only [true_iff]
    rcases h with h | h
    · exact Or.inl ((vsub_eq_zero_iff a b).mp ((norm2_eq_zero_iff _).mp h))
    · exact Or.inr ((vsub_eq_zero_iff c b).mp ((norm2_eq_zero_iff _).mp h))
  · rw [if_neg h]
    simp only [reduceCtorEq, false_iff]
    intro hc
    apply h
    rcases hc with hc | hc
    · exact Or.inl ((norm2_eq_zero_iff _).mpr ((vsub_eq_zero_iff a b).mpr hc))
    · exact Or.inr ((norm2_eq_zero_iff _).mpr ((vsub_eq_zero_iff c b).mpr hc))

/-- One candidate record of the release detector: frame number, elbow angle
(vertex at the elbow, rays to wrist and shoulder; `None` when degenerate) and
total arm length. -/
structure ReleaseCand where
  frame : ℕ
  elbow_angle : Option ℝ
  arm_length : ℝ

/-- Norm of the difference of two full keypoint rows: the source computes
`np.linalg.norm(right_wrist - right_elbow)` on the complete `(x, y, conf)`
triples, so the confidence channel participates in the arm length. -/
noncomputable def norm3 (p q : Pt) : ℝ :=
  Real.sqrt (((p.x - q.x : ℚ) : ℝ) ^ 2 + ((p.y - q.y : ℚ) : ℝ) ^ 2 +
    ((p.c - q.c : ℚ) : ℝ) ^ 2)

/-- The candidate predicate of the release detector: wrist above shoulder
(smaller y) and elbow behind wrist (smaller x). -/
def releasePred (item : PoseItem) : Prop :=
  (item.keypoints kpRightWrist).y < (item.keypoints kpRightShoulder).y ∧
  (item.keypoints kpRightElbow).x < (item.keypoints kpRightWrist).x

instance releasePred.decidable : DecidablePred releasePred := fun item => by
  unfold releasePred
  infer_instance

/-- One loop iteration of `detect_release_frame`: the candidate record when
the frame passes the predicate, `None` otherwise. -/
noncomputable def releaseCandOf (item : PoseItem) : Option ReleaseCand :=
  if (item.keypoints kpRightWrist).y < (item.keypoints kpRightShoulder).y ∧
     (item.keypoints kpRightElbow).x < (item.keypoints kpRightWrist).x then
    some { frame := item.frame,
           elbow_angle := calculate_pixel_angle (pt2 (item.keypoints kpRightWrist))
             (pt2 (item.keypoints kpRightElbow)) (pt2 (item.keypoints kpRightShoulder)),
           arm_length :=
             norm3 (item.keypoints kpRightWrist) (item.keypoints kpRightElbow) +
             norm3 (item.keypoints kpRightElbow) (item.keypoints kpRightShoulder) }
  else none

/-- The `candidate_frames` list accumulated by the loop of
`detect_release_frame`. -/
noncomputable def releaseCandidates (ps : List PoseItem) : List ReleaseCand :=
  ps.foldl (fun acc item =>
    match releaseCandOf item with
    | some c => acc ++ [c]
    | none => acc) []

/-- Python `max()` over a list of optional floats: comparing `None` with a
float raises a TypeError (modelled as the error value); a single-element list
is returned without any comparison. -/
noncomputable def pyMaxFloatOpt : List (Option ℝ) → Except Unit (Option ℝ)
  | [] => .error ()
  | x :: xs => xs.foldlM (fun best y =>
      match best, y with
      | some b, some a => .ok (some (if b < a then a else b))
      | none, _ => .error ()
      | some _, none => .error ()) x

/-- The comprehension `[f for f in candidate_frames if abs(f["elbow_angle"] -
max_angle) < 5]`: subtracting `None` raises a TypeError (the error value). -/
noncomputable def pyFilterNearMax (max_angle : Option ℝ) :
    List ReleaseCand → Except Unit (List ReleaseCand)
  | [] => .ok []
  | c :: cs =>
    match c.elbow_angle, max_angle with
    | some a, some m =>
      (pyFilterNearMax max_angle cs).map (fun rest => if |a - m| < 5 then c :: rest else rest)
    | none, _ => .error ()
    | some _, none => .error ()

/-- Python `max(candidates, key=arm_length)`: the first element of greatest
arm length (strictly greater replaces). -/
noncomputable def pyMaxByArmLength : List ReleaseCand → Except Unit ReleaseCand
  | [] => .error ()
  | x :: xs =>
    .ok (xs.foldl (fun best f => if best.arm_length < f.arm_length then f else best) x)

/-- Embedding of `detect_release_frame(pose_sequence)`: collect the candidate
frames, return `None` when there are none, otherwise pick the candidate of
greatest arm length among those within 5 degrees of the maximum elbow angle
(raising on any undefined angle, as the Python comparisons do). -/
noncomputable def detect_release_frame (ps : List PoseItem) : Except Unit (Option ℕ) :=
  if (releaseCandidates ps).isEmpty then .ok none
  else
    (pyMaxFloatOpt ((releaseCandidates ps).map ReleaseCand.elbow_angle)).bind
      (fun max_angle =>
        (pyFilterNearMax max_angle (releaseCandidates ps)).bind (fun top =>
          (pyMaxByArmLength top).map (fun best => some best.frame)))

lemma releaseCandidates_foldl_general :
    ∀ (ps : List PoseItem) (init : List ReleaseCand),
      ps.foldl (fun acc item =>
        match releaseCandOf item with
        | some c => acc ++ [c]
        | none => acc) init = init ++ ps.filterMap releaseCandOf := by
  intro ps
  induction ps with
  | nil => intro init; simp
  | cons x xs ih =>
    intro init
    simp only [List.foldl_cons, List.filterMap_cons]
    cases h : releaseCandOf x with
    | none => rw [ih]
    | some c =>
      rw [ih]
      simp

lemma releaseCandidates_eq_filterMap (ps : List PoseItem) :
    releaseCandidates ps = ps.filterMap releaseCandOf := by
  unfold releaseCandidates
  rw [releaseCandidates_foldl_general]
  rfl

lemma releaseCandidates_map_frame (ps : List PoseItem) :
    (releaseCandidates ps).map ReleaseCand.frame =
      (ps.filter (fun it => decide (releasePred it))).map PoseItem.frame := by
  rw [releaseCandidates_eq_filterMap]
  induction ps with
  | nil => rfl
  | cons item rest ih =>
    rw [List.filterMap_cons, List.filter_cons]
    by_cases hp : releasePred item
    · have hp' := hp
      unfold releasePred at hp'
      have hc : releaseCandOf item = some
          { frame := item.frame,
            elbow_angle := calculate_pixel_angle (pt2 (item.keypoints kpRightWrist))
              (pt2 (item.keypoints kpRightElbow)) (pt2 (item.keypoints kpRightShoulder)),
            arm_length :=
              norm3 (item.keypoints kpRightWrist) (item.keypoints kpRightElbow) +
              norm3 (item.keypoints kpRightElbow) (item.keypoints kpRightShoulder) } := by
        unfold releaseCandOf
        rw [if_pos hp']
      rw [hc, if_pos (by simpa using hp)]
      simp only [List.map_cons]
      rw [ih]
    · have hp' := hp
      unfold releasePred at hp'
      have hc : releaseCandOf item = none := by
        unfold releaseCandOf
        rw [if_neg hp']
      rw [hc, if_neg (by simpa using hp)]
      exact ih

lemma releaseCandidates_nil_iff (ps : List PoseItem) :
    releaseCandidates ps = [] ↔ ∀ item ∈ ps, ¬ releasePred item := by
  rw [releaseCandidates_eq_filterMap]
  rw [List.filterMap_eq_nil_iff]
  constructor
  · intro h item hmem hp
    have hthis := h item hmem
    unfold releasePred at hp
    unfold releaseCandOf at hthis
    rw [if_pos hp] at hthis
    exact absurd hthis (by simp)
  · intro h item hmem
    have hp := h item hmem
    unfold releasePred at hp
    unfold releaseCandOf
    rw [if_neg hp]

lemma foldl_maxBy_key {α : Type} (key : α → ℝ) :
    ∀ (l : List α) (x : α),
      (l.foldl (fun best f => if key best < key f then f else best) x) ∈ x :: l ∧
      ∀ y ∈ x :: l, key y ≤ key (l.foldl (fun best f => if key best < key f then f else best) x) := by
  intro l
  induction l with
  | nil =>
    intro x
    constructor
    · exact List.mem_singleton.mpr rfl
    · intro y hy
      rw [List.mem_singleton.mp hy, List.foldl_nil]
  | cons z zs ih =>
    intro x
    simp only [List.foldl_cons]
    by_cases hc : key x < key z
    · rw [if_pos hc]
      rcases ih z with ⟨hmem, hub⟩
      constructor
      · exact List.mem_cons_of_mem x hmem
      · intro y hy
        rcases List.mem_cons.mp hy with h | h
        · subst h
          exact le_trans (le_of_lt hc) (hub z (List.mem_cons_self _ _))
        · exact hub y h
    · rw [if_neg hc]
      rcases ih x with ⟨hmem, hub⟩
      constructor
      · rcases List.mem_cons.mp hmem with h | h
        · rw [h]
          exact List.mem_cons_self _ _
        · exact List.mem_cons_of_mem x (List.mem_cons_of_mem z h)
      · intro y hy
        rcases List.mem_cons.mp hy with h | h
        · subst h
          exact hub y (List.mem_cons_self _ _)
        · rcases List.mem_cons.mp h with h' | h'
          · subst h'
            exact le_trans (le_of_not_lt hc) (hub x (List.mem_cons_self _ _))
          · exact hub y (List.mem_cons_of_mem _ h')

lemma pyMaxByArmLength_spec (x : ReleaseCand) (xs : List ReleaseCand) :
    ∃ best, pyMaxByArmLength (x :: xs) = .ok best ∧ best ∈ x :: xs ∧
      ∀ y ∈ x :: xs, y.arm_length ≤ best.arm_length := by
  refine ⟨_, rfl, ?_, ?_⟩
  · exact (foldl_maxBy_key ReleaseCand.arm_length xs x).1
  · exact (foldl_maxBy_key ReleaseCand.arm_length xs x).2

lemma pyMaxFloatOpt_all_some :
    ∀ (l : List (Option ℝ)) (x : Option ℝ), (∀ y ∈ x :: l, y.isSome) →
      ∃ m, pyMaxFloatOpt (x :: l) = .ok (some m) ∧ some m ∈ x :: l ∧
        ∀ a, some a ∈ x :: l → a ≤ m := by
  intro l
  induction l with
  | nil =>
    intro x hall
    cases x with
    | none => exact absurd (hall none (List.mem_singleton.mpr rfl)) (by simp)
    | some b =>
      refine ⟨b, rfl, List.mem_singleton.mpr rfl, ?_⟩
      intro a ha
      rw [Option.some_inj.mp (List.mem_singleton.mp ha)]
  | cons y ys ih =>
    intro x hall
    cases x with
    | none => exact absurd (hall none (List.mem_cons_self _ _)) (by simp)
    | some b =>
      cases y with
      | none =>
        exact absurd (hall none (List.mem_cons_of_mem _ (List.mem_cons_self _ _))) (by simp)
      | some a =>
        have hall' : ∀ z ∈ (some (if b < a then a else b)) :: ys, z.isSome := by
          intro z hz
          rcases List.mem_cons.mp hz with h | h
          · rw [h]; rfl
          · exact hall z (List.mem_cons_of_mem _ (List.mem_cons_of_mem _ h))
        rcases ih (some (if b < a then a else b)) hall' with ⟨m, hok, hmem, hub⟩
        have hstep : pyMaxFloatOpt (some b :: some a :: ys) =
            pyMaxFloatOpt (some (if b < a then a else b) :: ys) := by
          unfold pyMaxFloatOpt
          rfl
        refine ⟨m, by rw [hstep]; exact hok, ?_, ?_⟩
        · rcases List.mem_cons.mp hmem with h | h
          · by_cases hc : b < a
            · rw [if_pos hc] at h
              rw [h]
              exact List.mem_cons_of_mem _ (List.mem_cons_self _ _)
            · rw [if_neg hc] at h
              rw [h]
              exact List.mem_cons_self _ _
          · exact List.mem_cons_of_mem _ (List.mem_cons_of_mem _ h)
        · intro c hc
          rcases List.mem_cons.mp hc with h | h
          · have hb : (if b < a then a else b) ≤ m := by
              have := hub (if b < a then a else b) (by
                by_cases hc' : b < a
                · rw [if_pos hc']
                  exact List.mem_cons_self _ _
                · rw [if_neg hc']
                  exact List.mem_cons_self _ _)
              exact this
            have : c = b := Option.some_inj.mp h.symm |>.symm
            subst this
            by_cases hc' : c < a
            · rw [if_pos hc'] at hb
              exact le_trans (le_of_lt hc') hb
            · rw [if_neg hc'] at hb
              exact hb
          · rcases List.mem_cons.mp h with h' | h'
            · have : c = a := Option.some_inj.mp h'.symm |>.symm
              subst this
              have hb : (if b < c then c else b) ≤ m :=
                hub _ (by
                  by_cases hc' : b < c
                  · rw [if_pos hc']
                    exact List.mem_cons_self _ _
                  · rw [if_neg hc']
                    exact List.mem_cons_self _ _)
              by_cases hc' : b < c
              · rw [if_pos hc'] at hb
                exact hb
              · rw [if_neg hc'] at hb
                exact le_trans (le_of_not_lt hc') hb
            · exact hub c (List.mem_cons_of_mem _ h')

lemma pyFilterNearMax_all_some (m : ℝ) :
    ∀ (l : List ReleaseCand), (∀ c ∈ l, c.elbow_angle.isSome) →
      ∃ top, pyFilterNearMax (some m) l = .ok top ∧
        ∀ c, c ∈ top ↔ c ∈ l ∧ ∃ a, c.elbow_angle = some a ∧ |a - m| < 5 := by
  intro l
  induction l with
  | nil =>
    intro _
    exact ⟨[], rfl, by simp⟩
  | cons c cs ih =>
    intro hall
    have hc : c.elbow_angle.isSome := hall c (List.mem_cons_self _ _)
    rcases Option.isSome_iff_exists.mp hc with ⟨a, ha⟩
    rcases ih (fun d hd => hall d (List.mem_cons_of_mem _ hd)) with ⟨top, htop, hiff⟩
    have hstep : pyFilterNearMax (some m) (c :: cs) =
        (pyFilterNearMax (some m) cs).map
          (fun rest => if |a - m| < 5 then c :: rest else rest) := by
      simp only [pyFilterNearMax, ha]
    rw [hstep, htop]
    by_cases hlt : |a - m| < 5
    · refine ⟨c :: top, by simp [Except.map, hlt], ?_⟩
      intro d
      constructor
      · intro hd
        rcases List.mem_cons.mp hd with h | h
        · subst h
          exact ⟨List.mem_cons_self _ _, a, ha, hlt⟩
        · rcases (hiff d).mp h with ⟨hmem, ha', hlt'⟩
          exact ⟨List.mem_cons_of_mem _ hmem, ha', hlt'⟩
      · rintro ⟨hd, a', ha', hlt'⟩
        rcases List.mem_cons.mp hd with h | h
        · subst h
          exact List.mem_cons_self _ _
        · exact List.mem_cons_of_mem _ ((hiff d).mpr ⟨h, a', ha', hlt'⟩)
    · refine ⟨top, by simp [Except.map, hlt], ?_⟩
      intro d
      constructor
      · intro hd
        rcases (hiff d).mp hd with ⟨hmem, ha', hlt'⟩
        exact ⟨List.mem_cons_of_mem _ hmem, ha', hlt'⟩
      · rintro ⟨hd, a', ha', hlt'⟩
        rcases List.mem_cons.mp hd with h | h
        · subst h
          rw [ha] at ha'
          rcases Option.some_inj.mp ha' with rfl
          exact absurd hlt' hlt
        · exact (hiff d).mpr ⟨h, a', ha', hlt'⟩

lemma except_bind_ok {ε α β : Type} (a : α) (f : α → Except ε β) :
    (Except.ok a).bind f = f a := rfl

lemma except_bind_error {ε α β : Type} (e : ε) (f : α → Except ε β) :
    (Except.error e).bind f = Except.error e := rfl

lemma except_map_ok {ε α β : Type} (f : α → β) (a : α) :
    (Except.ok a : Except ε α).map f = Except.ok (f a) := rfl

lemma except_map_error {ε α β : Type} (f : α → β) (e : ε) :
    (Except.error e : Except ε α).map f = Except.error e := rfl

lemma release_notfound_iff (ps : List PoseItem) :
    detect_release_frame ps = .ok none ↔ ∀ item ∈ ps, ¬ releasePred item := by
  by_cases hemp : (releaseCandidates ps).isEmpty
  · unfold detect_release_frame
    rw [if_pos hemp]
    simp only [Except.ok.injEq, true_iff]
    exact fun item hm hp =>
      ((releaseCandidates_nil_iff ps).mp (List.isEmpty_iff.mp hemp)) item hm hp
  · have hne : releaseCandidates ps ≠ [] := by
      intro hcontra
      rw [hcontra] at hemp
      exact hemp rfl
    unfold detect_release_frame
    rw [if_neg hemp]
    constructor
    · intro hchain
      exfalso
      cases hmax : pyMaxFloatOpt ((releaseCandidates ps).map ReleaseCand.elbow_angle) with
      | error e =>
        rw [hmax, except_bind_error] at hchain
        exact absurd hchain (by simp)
      | ok m =>
        rw [hmax, except_bind_ok] at hchain
        cases hfil : pyFilterNearMax m (releaseCandidates ps) with
        | error e =>
          rw [hfil, except_bind_error] at hchain
          exact absurd hchain (by simp)
        | ok top =>
          rw [hfil, except_bind_ok] at hchain
          cases hsel : pyMaxByArmLength top with
          | error e =>
            rw [hsel, except_map_error] at hchain
            exact absurd hchain (by simp)
          | ok best =>
            rw [hsel, except_map_ok] at hchain
            exact absurd hchain (by simp)
    · intro hnone
      exact absurd ((releaseCandidates_nil_iff ps).mpr hnone) hne

lemma release_selection_spec (ps : List PoseItem)
    (hall : ∀ c ∈ releaseCandidates ps, c.elbow_angle.isSome)
    (hne : releaseCandidates ps ≠ []) :
    ∃ c ∈ releaseCandidates ps, ∃ a m : ℝ,
      detect_release_frame ps = .ok (some c.frame) ∧
      c.elbow_angle = some a ∧
      (∃ c' ∈ releaseCandidates ps, c'.elbow_angle = some m) ∧
      (∀ c' ∈ releaseCandidates ps, ∀ a', c'.elbow_angle = some a' → a' ≤ m) ∧
      |a - m| < 5 ∧
      (∀ c' ∈ releaseCandidates ps, ∀ a', c'.elbow_angle = some a' → |a' - m| < 5 →
        c'.arm_length ≤ c.arm_length) := by
  cases hc : releaseCandidates ps with
  | nil => exact absurd hc hne
  | cons c0 cs =>
    rw [hc] at hall
    have hmapall : ∀ y ∈ c0.elbow_angle :: cs.map ReleaseCand.elbow_angle, y.isSome := by
      intro y hy
      rcases List.mem_cons.mp hy with h | h
      · rw [h]
        exact hall c0 (List.mem_cons_self _ _)
      · rcases List.mem_map.mp h with ⟨c, hcm, rfl⟩
        exact hall c (List.mem_cons_of_mem _ hcm)
    rcases pyMaxFloatOpt_all_some (cs.map ReleaseCand.elbow_angle) c0.elbow_angle hmapall
      with ⟨m, hok, hmmem, hub⟩
    rcases pyFilterNearMax_all_some m (c0 :: cs) hall with ⟨top, htop, hiff⟩
    have hcm : ∃ cm ∈ c0 :: cs, cm.elbow_angle = some m := by
      rcases List.mem_cons.mp hmmem with h | h
      · exact ⟨c0, List.mem_cons_self _ _, h.symm⟩
      · rcases List.mem_map.mp h with ⟨c, hcmem, hceq⟩
        exact ⟨c, List.mem_cons_of_mem _ hcmem, hceq⟩
    rcases hcm with ⟨cm, hcmmem, hcmeq⟩
    have hcmtop : cm ∈ top := (hiff cm).mpr ⟨hcmmem, m, hcmeq, by norm_num⟩
    cases htope : top with
    | nil =>
      rw [htope] at hcmtop
      exact absurd hcmtop (List.not_mem_nil cm)
    | cons t0 ts =>
      rcases pyMaxByArmLength_spec t0 ts with ⟨best, hsel, hbestmem, hbestub⟩
      have hbesttop : best ∈ top := htope ▸ hbestmem
      have hbestcands : best ∈ c0 :: cs := ((hiff best).mp hbesttop).1
      rcases ((hiff best).mp hbesttop).2 with ⟨a, hba, hblt⟩
      refine ⟨best, hc ▸ hbestcands, a, m, ?_, hba, ?_, ?_, hblt, ?_⟩
      · unfold detect_release_frame
        rw [hc]
        rw [if_neg (by simp)]
        simp only [List.map_cons]
        rw [hok, except_bind_ok]
        rw [htop, except_bind_ok]
        rw [htope, hsel, except_map_ok]
      · exact ⟨cm, hc ▸ hcmmem, hcmeq⟩
      · intro c' hc'mem a' ha'
        apply hub
        rcases List.mem_cons.mp hc'mem with h | h
        · rw [← ha', ← h]
          exact List.mem_cons_self _ _
        · exact List.mem_cons_of_mem _ (ha' ▸ List.mem_map_of_mem ReleaseCand.elbow_angle h)
      · intro c' hc'mem a' ha' hlt'
        have : c' ∈ top := (hiff c').mpr ⟨hc'mem, a', ha', hlt'⟩
        exact hbestub c' (htope ▸ this)

/-- C2 amended: the release detector's candidate set is exactly the frames
where the right wrist is above the right shoulder and the right elbow is
behind the right wrist (no confidence check); it returns not-found exactly
when no frame satisfies the predicate; and whenever every candidate's elbow
angle is defined, it returns a candidate frame within 5 degrees of the
maximum elbow angle that has the greatest arm length (computed over the full
(x, y, confidence) keypoint rows) among the candidates within that tolerance.
With a candidate of undefined elbow angle the Python comparisons raise
instead of returning (see the counterexample). -/
theorem claim2_release :
    (∀ ps, (releaseCandidates ps).map ReleaseCand.frame =
      (ps.filter (fun it => decide (releasePred it))).map PoseItem.frame) ∧
    (∀ ps, detect_release_frame ps = .ok none ↔ ∀ item ∈ ps, ¬ releasePred item) ∧
    (∀ ps, (∀ c ∈ releaseCandidates ps, c.elbow_angle.isSome) →
      releaseCandidates ps ≠ [] →
      ∃ c ∈ releaseCandidates ps, ∃ a m : ℝ,
        detect_release_frame ps = .ok (some c.frame) ∧
        c.elbow_angle = some a ∧
        (∃ c' ∈ releaseCandidates ps, c'.elbow_angle = some m) ∧
        (∀ c' ∈ releaseCandidates ps, ∀ a', c'.elbow_angle = some a' → a' ≤ m) ∧
        |a - m| < 5 ∧
        (∀ c' ∈ releaseCandidates ps, ∀ a', c'.elbow_angle = some a' → |a' - m| < 5 →
          c'.arm_length ≤ c.arm_length)) :=
  ⟨releaseCandidates_map_frame, release_notfound_iff, release_selection_spec⟩
/-- Keypoints with the right elbow coinciding with the right shoulder while
the release predicate holds: the elbow angle is undefined. -/
def kp2bad : Keypoints := fun i => if i = kpRightWrist then ⟨5, 0, 1⟩ else ⟨0, 10, 1⟩

/-- A single-frame pose sequence with a degenerate release candidate. -/
def ps2bad : List PoseItem := [⟨0, kp2bad⟩]

lemma releaseCandidates_ps2bad :
    releaseCandidates ps2bad =
      [⟨0, none, norm3 ⟨5, 0, 1⟩ ⟨0, 10, 1⟩ + norm3 ⟨0, 10, 1⟩ ⟨0, 10, 1⟩⟩] := by
  rw [releaseCandidates_eq_filterMap]
  show List.filterMap releaseCandOf [⟨0, kp2bad⟩] = _
  rw [List.filterMap_cons]
  have hcand : releaseCandOf ⟨0, kp2bad⟩ =
      some ⟨0, none, norm3 ⟨5, 0, 1⟩ ⟨0, 10, 1⟩ + norm3 ⟨0, 10, 1⟩ ⟨0, 10, 1⟩⟩ := by
    unfold releaseCandOf
    rw [if_pos (by decide)]
    rw [show calculate_pixel_angle (pt2 (PoseItem.keypoints ⟨0, kp2bad⟩ kpRightWrist))
        (pt2 (PoseItem.keypoints ⟨0, kp2bad⟩ kpRightElbow))
        (pt2 (PoseItem.keypoints ⟨0, kp2bad⟩ kpRightShoulder)) = none from
      (angle_eq_none_iff _ _ _).mpr (Or.inr rfl)]
    rfl
  rw [hcand]
  rfl

/-- Counterexample to C2: on a well-formed single-frame sequence whose only
frame satisfies the candidate predicate but has the elbow coinciding with the
shoulder, the detector raises a TypeError (comparing None with a float)
instead of returning that candidate frame or not-found. -/
theorem claim2_release_counterexample :
    detect_release_frame ps2bad = .error () ∧
    (releaseCandidates ps2bad).map ReleaseCand.frame = [0] := by
  have hc := releaseCandidates_ps2bad
  constructor
  · unfold detect_release_frame
    rw [hc]
    rw [if_neg (by simp)]
    rfl
  · rw [hc]
    rfl

/-- Keypoints of a well-formed, non-degenerate release candidate. -/
def kp2good : Keypoints := fun i =>
  if i = kpRightWrist then ⟨5, 0, 1⟩
  else if i = kpRightElbow then ⟨1, 1, 1⟩
  else ⟨0, 10, 1⟩

/-- A single-frame pose sequence with one non-degenerate release candidate. -/
def ps2good : List PoseItem := [⟨0, kp2good⟩]

lemma releaseCandidates_ps2good :
    releaseCandidates ps2good =
      [⟨0, calculate_pixel_angle (5, 0) (1, 1) (0, 10),
        norm3 ⟨5, 0, 1⟩ ⟨1, 1, 1⟩ + norm3 ⟨1, 1, 1⟩ ⟨0, 10, 1⟩⟩] := by
  rw [releaseCandidates_eq_filterMap]
  show List.filterMap releaseCandOf [⟨0, kp2good⟩] = _
  rw [List.filterMap_cons]
  have hcand : releaseCandOf ⟨0, kp2good⟩ =
      some ⟨0, calculate_pixel_angle (5, 0) (1, 1) (0, 10),
        norm3 ⟨5, 0, 1⟩ ⟨1, 1, 1⟩ + norm3 ⟨1, 1, 1⟩ ⟨0, 10, 1⟩⟩ := by
    unfold releaseCandOf
    rw [if_pos (by decide)]
    rfl
  rw [hcand]
  rfl

/-- Witness for C2 at a concrete input: the single candidate frame 0 with a
defined elbow angle is selected. -/
theorem claim2_release_witness :
    ∃ c ∈ releaseCandidates ps2good, ∃ a m : ℝ,
      detect_release_frame ps2good = .ok (some c.frame) ∧
      c.elbow_angle = some a ∧
      (∃ c' ∈ releaseCandidates ps2good, c'.elbow_angle = some m) ∧
      (∀ c' ∈ releaseCandidates ps2good, ∀ a', c'.elbow_angle = some a' → a' ≤ m) ∧
      |a - m| < 5 ∧
      (∀ c' ∈ releaseCandidates ps2good, ∀ a', c'.elbow_angle = some a' → |a' - m| < 5 →
        c'.arm_length ≤ c.arm_length) := by
  apply claim2_release.2.2 ps2good
  · intro c hcm
    rw [releaseCandidates_ps2good] at hcm
    rcases List.mem_singleton.mp hcm with rfl
    show (calculate_pixel_angle (5, 0) (1, 1) (0, 10)).isSome = true
    cases h : calculate_pixel_angle (5, 0) (1, 1) (0, 10) with
    | none =>
      rcases (angle_eq_none_iff _ _ _).mp h with hd | hd
      · exact absurd hd (by decide)
      · exact absurd hd (by decide)
    | some a => rfl
  · rw [releaseCandidates_ps2good]
    simp

/-! ### Shoulder-frame detector (kinematicsModule.py, detect_shoulder_frame) -/

/-- One candidate tuple `(angle, shoulder_distance, frame_idx)` of the
shoulder detector. -/
structure ShoulderCand where
  angle : Option ℝ
  sep : ℚ
  frame : ℕ

/-- The candidate tuple built for a surviving frame: shoulder-opening angle
(vertex at the right shoulder, rays to left shoulder and left hip),
horizontal shoulder separation, frame number. -/
noncomputable def mkShoulderCand (item : PoseItem) : ShoulderCand :=
  ⟨calculate_pixel_angle (pt2 (item.keypoints kpLeftShoulder))
      (pt2 (item.keypoints kpRightShoulder)) (pt2 (item.keypoints kpLeftHip)),
   |(item.keypoints kpRightShoulder).x - (item.keypoints kpLeftShoulder).x|,
   item.frame⟩

/-- One loop iteration of `detect_shoulder_frame` over the state
`(start_found, candidate_list)`: skip low-confidence frames, skip frames
before the arming trigger (wrist above shoulder, latched once), then discard
frames failing the exclusion test and accumulate the rest. -/
noncomputable def shoulderStep (st : Bool × List ShoulderCand) (item : PoseItem) :
    Bool × List ShoulderCand :=
  if min ((item.keypoints kpLeftShoulder).c)
      (min ((item.keypoints kpRightShoulder).c)
        (min ((item.keypoints kpLeftHip).c) ((item.keypoints kpRightWrist).c))) < 3 / 10 then
    st
  else
    if st.1 = false ∧
        ¬ ((item.keypoints kpRightWrist).y < (item.keypoints kpRightShoulder).y) then
      st
    else
      if (item.keypoints kpRightWrist).x > (item.keypoints kpRightShoulder).x ∨
          (item.keypoints kpRightWrist).y ≥ (item.keypoints kpRightShoulder).y then
        (true, st.2)
      else
        (true, st.2 ++ [mkShoulderCand item])

/-- The `candidate_list` built by `detect_shoulder_frame`: the loop breaks at
the first frame with number above the release frame and folds the remaining
frames through `shoulderStep` starting unarmed. -/
noncomputable def shoulderCandidates (ps : List PoseItem) (release_frame : ℕ) :
    List ShoulderCand :=
  ((ps.takeWhile (fun item => decide (item.frame ≤ release_frame))).foldl
    shoulderStep (false, [])).2

/-- Stable descending insertion by separation, placing the new element after
existing elements of equal separation (the order produced by Python's stable
`sorted(candidate_list, key=lambda x: -x[1])`). -/
def insertBySepDesc (x : ShoulderCand) : List ShoulderCand → List ShoulderCand
  | [] => [x]
  | y :: ys => if y.sep < x.sep then x :: y :: ys else y :: insertBySepDesc x ys

/-- Stable descending sort by separation. -/
def sortBySepDesc (l : List ShoulderCand) : List ShoulderCand :=
  l.foldl (fun acc x => insertBySepDesc x acc) []

/-- Python `max(top3, key=lambda x: x[0])`: first element of maximal angle;
comparing an undefined (`None`) angle with a float raises; a single-element
list is returned without any comparison. -/
noncomputable def pyMaxByAngle : List ShoulderCand → Except Unit ShoulderCand
  | [] => .error ()
  | x :: xs => xs.foldlM (fun best y =>
      match best.angle, y.angle with
      | some b, some a => .ok (if b < a then y else best)
      | none, _ => .error ()
      | some _, none => .error ()) x

/-- Embedding of `detect_shoulder_frame(pose_sequence, release_frame)`. -/
noncomputable def detect_shoulder_frame (ps : List PoseItem) (release_frame : ℕ) :
    Except Unit (Option ℕ) :=
  if (shoulderCandidates ps release_frame).isEmpty then .ok none
  else
    (pyMaxByAngle ((sortBySepDesc (shoulderCandidates ps release_frame)).take 3)).map
      (fun best => some best.frame)

/-- The per-frame survival condition of the shoulder detector, ignoring the
frame-number bound: confidence at least 0.3 on left shoulder, right shoulder,
left hip and right wrist; wrist strictly above the shoulder; wrist not past
the shoulder in x. -/
def shoulderCond (item : PoseItem) : Prop :=
  ¬ (min ((item.keypoints kpLeftShoulder).c)
      (min ((item.keypoints kpRightShoulder).c)
        (min ((item.keypoints kpLeftHip).c) ((item.keypoints kpRightWrist).c))) < 3 / 10) ∧
  (item.keypoints kpRightWrist).y < (item.keypoints kpRightShoulder).y ∧
  (item.keypoints kpRightWrist).x ≤ (item.keypoints kpRightShoulder).x

instance shoulderCond.decidable : DecidablePred shoulderCond := fun item => by
  unfold shoulderCond
  infer_instance

/-- The full spec-side candidate predicate of the shoulder detector. -/
def shoulderPred (release_frame : ℕ) (item : PoseItem) : Prop :=
  item.frame ≤ release_frame ∧ shoulderCond item

instance shoulderPred.decidable (release_frame : ℕ) :
    DecidablePred (shoulderPred release_frame) := fun item => by
  unfold shoulderPred
  infer_instance

lemma shoulderStep_foldl :
    ∀ (l : List PoseItem) (st : Bool) (acc : List ShoulderCand),
      (l.foldl shoulderStep (st, acc)).2 =
        acc ++ (l.filter (fun it => decide (shoulderCond it))).map mkShoulderCand := by
  intro l
  induction l with
  | nil => intro st acc; simp
  | cons item l ih =>
    intro st acc
    simp only [List.foldl_cons, List.filter_cons]
    by_cases h1 : min ((item.keypoints kpLeftShoulder).c)
        (min ((item.keypoints kpRightShoulder).c)
          (min ((item.keypoints kpLeftHip).c) ((item.keypoints kpRightWrist).c))) < 3 / 10
    · have hstep : shoulderStep (st, acc) item = (st, acc) := by
        unfold shoulderStep
        rw [if_pos h1]
      have hcond : decide (shoulderCond item) = false := by
        simp only [decide_eq_false_iff_not]
        intro hc
        exact hc.1 h1
      rw [hstep, hcond]
      simp only [Bool.false_eq_true, if_false]
      exact ih st acc
    · by_cases h2 : st = false ∧
          ¬ ((item.keypoints kpRightWrist).y < (item.keypoints kpRightShoulder).y)
      · have hstep : shoulderStep (st, acc) item = (st, acc) := by
          unfold shoulderStep
          rw [if_neg h1, if_pos h2]
        have hcond : decide (shoulderCond item) = false := by
          simp only [decide_eq_false_iff_not]
          intro hc
          exact h2.2 hc.2.1
        rw [hstep, hcond]
        simp only [Bool.false_eq_true, if_false]
        exact ih st acc
      · by_cases h3 : (item.keypoints kpRightWrist).x > (item.keypoints kpRightShoulder).x ∨
            (item.keypoints kpRightWrist).y ≥ (item.keypoints kpRightShoulder).y
        · have hstep : shoulderStep (st, acc) item = (true, acc) := by
            unfold shoulderStep
            rw [if_neg h1, if_neg h2, if_pos h3]
          have hcond : decide (shoulderCond item) = false := by
            simp only [decide_eq_false_iff_not]
            intro hc
            rcases h3 with h3 | h3
            · exact absurd hc.2.2 (not_le_of_lt h3)
            · exact absurd hc.2.1 (not_lt_of_ge h3)
          rw [hstep, hcond]
          simp only [Bool.false_eq_true, if_false]
          exact ih true acc
        · have hstep : shoulderStep (st, acc) item = (true, acc ++ [mkShoulderCand item]) := by
            unfold shoulderStep
            rw [if_neg h1, if_neg h2, if_neg h3]
          push_neg at h3
          have hcond : decide (shoulderCond item) = true := by
            simp only [decide_eq_true_eq]
            exact ⟨h1, h3.2, h3.1⟩
          rw [hstep, hcond]
          simp only [if_true]
          rw [ih true (acc ++ [mkShoulderCand item])]
          simp

lemma takeWhile_frame_eq_filter {rel : ℕ} :
    ∀ {ps : List PoseItem}, List.Pairwise (fun a b => a.frame < b.frame) ps →
      ps.takeWhile (fun item => decide (item.frame ≤ rel)) =
        ps.filter (fun item => decide (item.frame ≤ rel)) := by
  intro ps
  induction ps with
  | nil => intro _; rfl
  | cons a l ih =>
    intro hp
    rcases List.pairwise_cons.mp hp with ⟨ha, hl⟩
    by_cases hle : a.frame ≤ rel
    · have hd : decide (a.frame ≤ rel) = true := by simp [hle]
      rw [List.takeWhile_cons, List.filter_cons, hd]
      simp only [if_true]
      rw [ih hl]
    · have hd : decide (a.frame ≤ rel) = false := by simp [hle]
      rw [List.takeWhile_cons, List.filter_cons, hd]
      simp only [Bool.false_eq_true, if_false]
      have hnil : l.filter (fun item => decide (item.frame ≤ rel)) = [] := by
        rw [List.filter_eq_nil_iff]
        intro b hb
        simp only [decide_eq_true_eq]
        have := ha b hb
        omega
      rw [hnil]

lemma shoulderCandidates_eq_of_sorted {ps : List PoseItem} {rel : ℕ}
    (hs : List.Pairwise (fun a b => a.frame < b.frame) ps) :
    shoulderCandidates ps rel =
      (ps.filter (fun it => decide (shoulderPred rel it))).map mkShoulderCand := by
  unfold shoulderCandidates
  rw [takeWhile_frame_eq_filter hs, shoulderStep_foldl, List.nil_append, List.filter_filter]
  congr 1
  apply List.filter_congr
  intro item _
  unfold shoulderPred
  by_cases h1 : shoulderCond item <;> by_cases h2 : item.frame ≤ rel <;> simp [h1, h2]

lemma insertBySepDesc_perm (x : ShoulderCand) :
    ∀ l : List ShoulderCand, (insertBySepDesc x l).Perm (x :: l) := by
  intro l
  induction l with
  | nil => exact List.Perm.refl _
  | cons y ys ih =>
    unfold insertBySepDesc
    by_cases h : y.sep < x.sep
    · rw [if_pos h]
    · rw [if_neg h]
      exact List.Perm.trans (List.Perm.cons y ih) (List.Perm.swap x y ys)

lemma sortBySepDesc_perm_general :
    ∀ (l : List ShoulderCand) (acc : List ShoulderCand),
      (l.foldl (fun acc x => insertBySepDesc x acc) acc).Perm (l ++ acc) := by
  intro l
  induction l with
  | nil => intro acc; simp
  | cons x xs ih =>
    intro acc
    simp only [List.foldl_cons, List.cons_append]
    have h1 := ih (insertBySepDesc x acc)
    have h2 : (xs ++ insertBySepDesc x acc).Perm (xs ++ x :: acc) :=
      List.Perm.append_left xs (insertBySepDesc_perm x acc)
    have h3 : (xs ++ x :: acc).Perm (x :: (xs ++ acc)) := List.perm_middle
    exact h1.trans (h2.trans h3)

lemma sortBySepDesc_perm (l : List ShoulderCand) : (sortBySepDesc l).Perm l := by
  unfold sortBySepDesc
  have := sortBySepDesc_perm_general l []
  simpa using this

lemma insertBySepDesc_sorted {x : ShoulderCand} :
    ∀ {l : List ShoulderCand}, List.Pairwise (fun a b => b.sep ≤ a.sep) l →
      List.Pairwise (fun a b => b.sep ≤ a.sep) (insertBySepDesc x l) := by
  intro l
  induction l with
  | nil => intro _; simp [insertBySepDesc]
  | cons y ys ih =>
    intro hp
    rcases List.pairwise_cons.mp hp with ⟨hy, hys⟩
    unfold insertBySepDesc
    by_cases h : y.sep < x.sep
    · rw [if_pos h]
      rw [List.pairwise_cons]
      constructor
      · intro z hz
        rcases List.mem_cons.mp hz with h' | h'
        · rw [h']
          exact le_of_lt h
        · exact le_trans (hy z h') (le_of_lt h)
      · exact hp
    · rw [if_neg h]
      rw [List.pairwise_cons]
      constructor
      · intro z hz
        have hz' : z ∈ x :: ys := (insertBySepDesc_perm x ys).mem_iff.mp hz
        rcases List.mem_cons.mp hz' with h' | h'
        · rw [h']
          exact le_of_not_lt h
        · exact hy z h'
      · exact ih hys

lemma sortBySepDesc_sorted (l : List ShoulderCand) :
    List.Pairwise (fun a b => b.sep ≤ a.sep) (sortBySepDesc l) := by
  unfold sortBySepDesc
  have : ∀ (m : List ShoulderCand) (acc : List ShoulderCand),
      List.Pairwise (fun a b => b.sep ≤ a.sep) acc →
      List.Pairwise (fun a b => b.sep ≤ a.sep)
        (m.foldl (fun acc x => insertBySepDesc x acc) acc) := by
    intro m
    induction m with
    | nil => intro acc h; exact h
    | cons x xs ih =>
      intro acc h
      simp only [List.foldl_cons]
      exact ih _ (insertBySepDesc_sorted h)
  exact this l [] List.Pairwise.nil

lemma pyMaxByAngle_all_some :
    ∀ (l : List ShoulderCand) (x : ShoulderCand), (∀ c ∈ x :: l, c.angle.isSome) →
      ∃ best abest, pyMaxByAngle (x :: l) = .ok best ∧ best ∈ x :: l ∧
        best.angle = some abest ∧
        ∀ y ∈ x :: l, ∀ ay, y.angle = some ay → ay ≤ abest := by
  intro l
  induction l with
  | nil =>
    intro x hall
    rcases Option.isSome_iff_exists.mp (hall x (List.mem_singleton.mpr rfl)) with ⟨b, hb⟩
    refine ⟨x, b, rfl, List.mem_singleton.mpr rfl, hb, ?_⟩
    intro y hy ay hay
    rw [List.mem_singleton.mp hy] at hay
    rw [hay] at hb
    rw [Option.some_inj.mp hb]
  | cons y ys ih =>
    intro x hall
    rcases Option.isSome_iff_exists.mp (hall x (List.mem_cons_self _ _)) with ⟨b, hb⟩
    rcases Option.isSome_iff_exists.mp
      (hall y (List.mem_cons_of_mem _ (List.mem_cons_self _ _))) with ⟨a, ha⟩
    have hstep : pyMaxByAngle (x :: y :: ys) = pyMaxByAngle ((if b < a then y else x) :: ys) := by
      simp only [pyMaxByAngle, List.foldlM_cons, hb, ha]
      rfl
    have hall' : ∀ c ∈ (if b < a then y else x) :: ys, c.angle.isSome := by
      intro c hc
      rcases List.mem_cons.mp hc with h | h
      · by_cases hba : b < a
        · rw [if_pos hba] at h
          rw [h]
          exact hall y (List.mem_cons_of_mem _ (List.mem_cons_self _ _))
        · rw [if_neg hba] at h
          rw [h]
          exact hall x (List.mem_cons_self _ _)
      · exact hall c (List.mem_cons_of_mem _ (List.mem_cons_of_mem _ h))
    rcases ih (if b < a then y else x) hall' with ⟨best, abest, hok, hmem, hbest, hub⟩
    refine ⟨best, abest, by rw [hstep]; exact hok, ?_, hbest, ?_⟩
    · rcases List.mem_cons.mp hmem with h | h
      · by_cases hba : b < a
        · rw [if_pos hba] at h
          rw [h]
          exact List.mem_cons_of_mem _ (List.mem_cons_self _ _)
        · rw [if_neg hba] at h
          rw [h]
          exact List.mem_cons_self _ _
      · exact List.mem_cons_of_mem _ (List.mem_cons_of_mem _ h)
    · have hmax : (if b < a then a else b) ≤ abest := by
        by_cases hba : b < a
        · rw [if_pos hba]
          exact hub _ (by rw [if_pos hba]; exact List.mem_cons_self _ _) a ha
        · rw [if_neg hba]
          exact hub _ (by rw [if_neg hba]; exact List.mem_cons_self _ _) b hb
      intro z hz az haz
      rcases List.mem_cons.mp hz with h | h
      · rw [h] at haz
        rw [haz] at hb
        rcases Option.some_inj.mp hb with rfl
        by_cases hba : az < a
        · rw [if_pos hba] at hmax
          exact le_trans (le_of_lt hba) hmax
        · rw [if_neg hba] at hmax
          exact hmax
      · rcases List.mem_cons.mp h with h' | h'
        · rw [h'] at haz
          rw [haz] at ha
          rcases Option.some_inj.mp ha with rfl
          by_cases hba : b < az
          · rw [if_pos hba] at hmax
            exact hmax
          · rw [if_neg hba] at hmax
            exact le_trans (le_of_not_lt hba) hmax
        · exact hub z (List.mem_cons_of_mem _ h') az haz

/-- C7 amended: over a frame-sorted pose sequence the shoulder detector's
candidate set is exactly the frames with number at most the release frame
that have confidence at least 0.3 on left shoulder, right shoulder, left hip
and right wrist, the wrist strictly above the shoulder and not past it in x
(the arming latch adds nothing, because every frame meeting these conditions
arms itself); it returns not-found exactly when no candidate survives; and
whenever every candidate's shoulder-opening angle is defined, it returns the
frame of largest angle among the first 3 candidates of a stable descending
sort by horizontal shoulder separation. With two or more surviving candidates
one of which has an undefined angle, the Python comparison raises instead of
returning (see the counterexample). -/
lemma shoulder_notfound_iff (ps : List PoseItem) (rel : ℕ) :
    detect_shoulder_frame ps rel = .ok none ↔ shoulderCandidates ps rel = [] := by
  by_cases hemp : (shoulderCandidates ps rel).isEmpty
  · unfold detect_shoulder_frame
    rw [if_pos hemp]
    simp only [Except.ok.injEq, true_iff]
    exact List.isEmpty_iff.mp hemp
  · have hne : shoulderCandidates ps rel ≠ [] := by
      intro hcontra
      rw [hcontra] at hemp
      exact hemp rfl
    unfold detect_shoulder_frame
    rw [if_neg hemp]
    constructor
    · intro hchain
      exfalso
      cases hsel : pyMaxByAngle ((sortBySepDesc (shoulderCandidates ps rel)).take 3) with
      | error e =>
        rw [hsel, except_map_error] at hchain
        exact absurd hchain (by simp)
      | ok best =>
        rw [hsel, except_map_ok] at hchain
        exact absurd hchain (by simp)
    · intro hnil
      exact absurd hnil hne

lemma shoulder_selection_spec (ps : List PoseItem) (rel : ℕ)
    (hne : shoulderCandidates ps rel ≠ [])
    (hall : ∀ c ∈ shoulderCandidates ps rel, c.angle.isSome) :
    (sortBySepDesc (shoulderCandidates ps rel)).Perm (shoulderCandidates ps rel) ∧
    List.Pairwise (fun a b => b.sep ≤ a.sep) (sortBySepDesc (shoulderCandidates ps rel)) ∧
    (∀ x ∈ (sortBySepDesc (shoulderCandidates ps rel)).take 3,
      ∀ y ∈ (sortBySepDesc (shoulderCandidates ps rel)).drop 3, y.sep ≤ x.sep) ∧
    ∃ best abest, detect_shoulder_frame ps rel = .ok (some best.frame) ∧
      best ∈ (sortBySepDesc (shoulderCandidates ps rel)).take 3 ∧
      best.angle = some abest ∧
      ∀ y ∈ (sortBySepDesc (shoulderCandidates ps rel)).take 3,
        ∀ ay, y.angle = some ay → ay ≤ abest := by
  refine ⟨sortBySepDesc_perm _, sortBySepDesc_sorted _, ?_, ?_⟩
  · intro x hx y hy
    have hsorted := sortBySepDesc_sorted (shoulderCandidates ps rel)
    rw [← List.take_append_drop 3 (sortBySepDesc (shoulderCandidates ps rel))] at hsorted
    rcases List.pairwise_append.mp hsorted with ⟨_, _, hcross⟩
    exact hcross x hx y hy
  · cases hsort : sortBySepDesc (shoulderCandidates ps rel) with
    | nil =>
      exfalso
      have := sortBySepDesc_perm (shoulderCandidates ps rel)
      rw [hsort] at this
      exact hne (this.nil_eq).symm
    | cons s0 stail =>
      have htake : List.take 3 (s0 :: stail) = s0 :: stail.take 2 := rfl
      have halltake : ∀ c ∈ s0 :: stail.take 2, c.angle.isSome := by
        intro c hc
        apply hall
        have h1 : c ∈ List.take 3 (s0 :: stail) := htake ▸ hc
        have h2 : c ∈ s0 :: stail := List.mem_of_mem_take h1
        have h3 : c ∈ sortBySepDesc (shoulderCandidates ps rel) := hsort ▸ h2
        exact (sortBySepDesc_perm _).mem_iff.mp h3
      rcases pyMaxByAngle_all_some (stail.take 2) s0 halltake with
        ⟨best, abest, hok, hmem, hbest, hub⟩
      refine ⟨best, abest, ?_, htake ▸ hmem, hbest, ?_⟩
      · unfold detect_shoulder_frame
        rw [if_neg (by intro hcontra; exact hne (List.isEmpty_iff.mp hcontra))]
        rw [hsort, htake, hok, except_map_ok]
      · intro y hy ay hay
        exact hub y (htake ▸ hy) ay hay

/-- C7 amended: over a frame-sorted pose sequence the shoulder detector's
candidate set is exactly the frames with number at most the release frame
that have confidence at least 0.3 on left shoulder, right shoulder, left hip
and right wrist, the wrist strictly above the shoulder and not past it in x
(the arming latch adds nothing, because every frame meeting these conditions
arms itself); it returns not-found exactly when no candidate survives; and
whenever every candidate's shoulder-opening angle is defined, it returns the
frame of largest angle among the first 3 candidates of a stable descending
sort by horizontal shoulder separation. With two or more surviving candidates
one of which has an undefined angle, the Python comparison raises instead of
returning (see the counterexample). -/
theorem claim7_shoulder :
    (∀ ps rel, List.Pairwise (fun a b => a.frame < b.frame) ps →
      shoulderCandidates ps rel =
        (ps.filter (fun it => decide (shoulderPred rel it))).map mkShoulderCand) ∧
    (∀ ps rel, detect_shoulder_frame ps rel = .ok none ↔ shoulderCandidates ps rel = []) ∧
    (∀ ps rel, shoulderCandidates ps rel ≠ [] →
      (∀ c ∈ shoulderCandidates ps rel, c.angle.isSome) →
      (sortBySepDesc (shoulderCandidates ps rel)).Perm (shoulderCandidates ps rel) ∧
      List.Pairwise (fun a b => b.sep ≤ a.sep) (sortBySepDesc (shoulderCandidates ps rel)) ∧
      (∀ x ∈ (sortBySepDesc (shoulderCandidates ps rel)).take 3,
        ∀ y ∈ (sortBySepDesc (shoulderCandidates ps rel)).drop 3, y.sep ≤ x.sep) ∧
      ∃ best abest, detect_shoulder_frame ps rel = .ok (some best.frame) ∧
        best ∈ (sortBySepDesc (shoulderCandidates ps rel)).take 3 ∧
        best.angle = some abest ∧
        ∀ y ∈ (sortBySepDesc (shoulderCandidates ps rel)).take 3,
          ∀ ay, y.angle = some ay → ay ≤ abest) :=
  ⟨fun _ _ hs => shoulderCandidates_eq_of_sorted hs,
   fun ps rel => shoulder_notfound_iff ps rel,
   fun ps rel hne hall => shoulder_selection_spec ps rel hne hall⟩

/-- Keypoints whose left hip coincides with the right shoulder (undefined
shoulder-opening angle) while passing every filter of the shoulder detector. -/
def kp7a : Keypoints := fun i =>
  if i = kpLeftShoulder then ⟨80, 50, 1⟩
  else if i = kpRightWrist then ⟨30, 20, 1⟩
  else ⟨50, 50, 1⟩

/-- Keypoints passing every filter with a well-defined shoulder-opening angle. -/
def kp7b : Keypoints := fun i =>
  if i = kpLeftShoulder then ⟨80, 50, 1⟩
  else if i = kpRightWrist then ⟨30, 20, 1⟩
  else if i = kpLeftHip then ⟨55, 100, 1⟩
  else ⟨50, 50, 1⟩

/-- A sorted two-frame sequence whose first surviving candidate has an
undefined shoulder-opening angle. -/
def ps7bad : List PoseItem := [⟨0, kp7a⟩, ⟨1, kp7b⟩]

lemma kp7a_ls : kp7a kpLeftShoulder = ⟨80, 50, 1⟩ := by decide

lemma kp7a_rs : kp7a kpRightShoulder = ⟨50, 50, 1⟩ := by decide

lemma kp7a_lh : kp7a kpLeftHip = ⟨50, 50, 1⟩ := by decide

lemma kp7a_rw : kp7a kpRightWrist = ⟨30, 20, 1⟩ := by decide

lemma kp7b_ls : kp7b kpLeftShoulder = ⟨80, 50, 1⟩ := by decide

lemma kp7b_rs : kp7b kpRightShoulder = ⟨50, 50, 1⟩ := by decide

lemma kp7b_lh : kp7b kpLeftHip = ⟨55, 100, 1⟩ := by decide

lemma kp7b_rw : kp7b kpRightWrist = ⟨30, 20, 1⟩ := by decide

lemma shoulderStep_eval_a :
    shoulderStep (false, []) ⟨0, kp7a⟩ = (true, [mkShoulderCand ⟨0, kp7a⟩]) := by
  unfold shoulderStep
  norm_num [kp7a_ls, kp7a_rs, kp7a_lh, kp7a_rw, min_def]

lemma shoulderStep_eval_b (st : Bool) (acc : List ShoulderCand) :
    shoulderStep (st, acc) ⟨1, kp7b⟩ = (true, acc ++ [mkShoulderCand ⟨1, kp7b⟩]) := by
  unfold shoulderStep
  norm_num [kp7b_ls, kp7b_rs, kp7b_lh, kp7b_rw, min_def]

lemma pyMaxByAngle_none_first (x y : ShoulderCand) (hx : x.angle = none)
    (ys : List ShoulderCand) : pyMaxByAngle (x :: y :: ys) = .error () := by
  simp only [pyMaxByAngle, List.foldlM_cons, hx]
  rfl

lemma shoulderCandidates_ps7bad :
    shoulderCandidates ps7bad 5 =
      [mkShoulderCand ⟨0, kp7a⟩, mkShoulderCand ⟨1, kp7b⟩] := by
  unfold shoulderCandidates
  have htw : ps7bad.takeWhile (fun item => decide (item.frame ≤ 5)) = ps7bad := by
    unfold ps7bad
    simp
  rw [htw]
  show (List.foldl shoulderStep (false, []) [⟨0, kp7a⟩, ⟨1, kp7b⟩]).2 = _
  rw [List.foldl_cons, shoulderStep_eval_a, List.foldl_cons, shoulderStep_eval_b,
    List.foldl_nil]
  rfl

/-- Counterexample to C7: on a sorted, well-formed two-frame sequence where
both frames survive all filters but the first has its left hip coinciding
with the right shoulder (undefined angle), the detector raises a TypeError
(comparing None with a float) instead of returning a frame or not-found. -/
theorem claim7_shoulder_counterexample :
    detect_shoulder_frame ps7bad 5 = .error () ∧
    (shoulderCandidates ps7bad 5).map ShoulderCand.frame = [0, 1] := by
  have hcands := shoulderCandidates_ps7bad
  have hangleA : (mkShoulderCand ⟨0, kp7a⟩).angle = none := by
    show calculate_pixel_angle (pt2 (kp7a kpLeftShoulder)) (pt2 (kp7a kpRightShoulder))
      (pt2 (kp7a kpLeftHip)) = none
    exact (angle_eq_none_iff _ _ _).mpr (Or.inr rfl)
  constructor
  · unfold detect_shoulder_frame
    rw [hcands, if_neg (by simp)]
    have hsort : sortBySepDesc [mkShoulderCand ⟨0, kp7a⟩, mkShoulderCand ⟨1, kp7b⟩] =
        [mkShoulderCand ⟨0, kp7a⟩, mkShoulderCand ⟨1, kp7b⟩] := by
      unfold sortBySepDesc
      simp only [List.foldl_cons, List.foldl_nil]
      simp only [insertBySepDesc]
      have hsep : (mkShoulderCand ⟨1, kp7b⟩).sep = (mkShoulderCand ⟨0, kp7a⟩).sep := rfl
      rw [if_neg (fun h => lt_irrefl _ (hsep ▸ h))]
    rw [hsort]
    rw [show List.take 3 [mkShoulderCand ⟨0, kp7a⟩, mkShoulderCand ⟨1, kp7b⟩] =
      [mkShoulderCand ⟨0, kp7a⟩, mkShoulderCand ⟨1, kp7b⟩] from rfl]
    rw [pyMaxByAngle_none_first _ _ hangleA]
    rfl
  · rw [hcands]
    rfl

/-- Keypoints rejected by the confidence gate (right wrist confidence 0.1). -/
def kp7c : Keypoints := fun i =>
  if i = kpRightWrist then ⟨30, 20, 1 / 10⟩ else ⟨50, 50, 1⟩

lemma kp7c_ls : kp7c kpLeftShoulder = ⟨50, 50, 1⟩ := by
  unfold kp7c
  rw [if_neg (by decide)]

lemma kp7c_rs : kp7c kpRightShoulder = ⟨50, 50, 1⟩ := by
  unfold kp7c
  rw [if_neg (by decide)]

lemma kp7c_lh : kp7c kpLeftHip = ⟨50, 50, 1⟩ := by
  unfold kp7c
  rw [if_neg (by decide)]

lemma kp7c_rw : kp7c kpRightWrist = ⟨30, 20, 1 / 10⟩ := by
  unfold kp7c
  rw [if_pos rfl]

/-- A sorted two-frame sequence with exactly one surviving, non-degenerate
shoulder candidate (the first frame fails the confidence gate). -/
def ps7good : List PoseItem := [⟨0, kp7c⟩, ⟨1, kp7b⟩]

lemma shoulderStep_eval_c :
    shoulderStep (false, []) ⟨0, kp7c⟩ = (false, []) := by
  unfold shoulderStep
  norm_num [kp7c_ls, kp7c_rs, kp7c_lh, kp7c_rw, min_def]

lemma shoulderCandidates_ps7good :
    shoulderCandidates ps7good 5 = [mkShoulderCand ⟨1, kp7b⟩] := by
  unfold shoulderCandidates
  have htw : ps7good.takeWhile (fun item => decide (item.frame ≤ 5)) = ps7good := by
    unfold ps7good
    simp
  rw [htw]
  show (List.foldl shoulderStep (false, []) [⟨0, kp7c⟩, ⟨1, kp7b⟩]).2 = _
  rw [List.foldl_cons, shoulderStep_eval_c, List.foldl_cons, shoulderStep_eval_b,
    List.foldl_nil]
  rfl

/-- Witness for C7 at a concrete input: the candidate characterization holds
on the sorted sequence and the single surviving candidate (frame 1) is
selected. -/
theorem claim7_shoulder_witness :
    (shoulderCandidates ps7good 5 =
      (ps7good.filter (fun it => decide (shoulderPred 5 it))).map mkShoulderCand) ∧
    ((sortBySepDesc (shoulderCandidates ps7good 5)).Perm (shoulderCandidates ps7good 5) ∧
      List.Pairwise (fun a b => b.sep ≤ a.sep) (sortBySepDesc (shoulderCandidates ps7good 5)) ∧
      (∀ x ∈ (sortBySepDesc (shoulderCandidates ps7good 5)).take 3,
        ∀ y ∈ (sortBySepDesc (shoulderCandidates ps7good 5)).drop 3, y.sep ≤ x.sep) ∧
      ∃ best abest, detect_shoulder_frame ps7good 5 = .ok (some best.frame) ∧
        best ∈ (sortBySepDesc (shoulderCandidates ps7good 5)).take 3 ∧
        best.angle = some abest ∧
        ∀ y ∈ (sortBySepDesc (shoulderCandidates ps7good 5)).take 3,
          ∀ ay, y.angle = some ay → ay ≤ abest) := by
  constructor
  · apply claim7_shoulder.1 ps7good 5
    unfold ps7good
    refine List.Pairwise.cons ?_ (List.pairwise_singleton _ _)
    intro b hb
    rcases List.mem_singleton.mp hb with rfl
    show (0 : ℕ) < 1
    norm_num
  · apply claim7_shoulder.2.2 ps7good 5
    · rw [shoulderCandidates_ps7good]
      simp
    · intro c hc
      rw [shoulderCandidates_ps7good] at hc
      rcases List.mem_singleton.mp hc with rfl
      show (calculate_pixel_angle (pt2 (kp7b kpLeftShoulder)) (pt2 (kp7b kpRightShoulder))
        (pt2 (kp7b kpLeftHip))).isSome = true
      cases h : calculate_pixel_angle (pt2 (kp7b kpLeftShoulder)) (pt2 (kp7b kpRightShoulder))
          (pt2 (kp7b kpLeftHip)) with
      | none =>
        rcases (angle_eq_none_iff _ _ _).mp h with hd | hd
        · exact absurd hd (by decide)
        · exact absurd hd (by decide)
      | some a => rfl


/-! ### Full pipeline (kinematicsModule.py, feature2kinematic and
extract_pitching_biomechanics) -/

/-- Embedding of `get_keypoints_at(pose_sequence, frame_id)`: the keypoints of
the first item whose frame number equals `frame_id`. The frame id may be the
Python `None` (an `int == None` test is `False`, so the lookup then fails). -/
def get_keypoints_at (ps : List PoseItem) (frame_id : Option ℕ) : Option Keypoints :=
  (ps.find? (fun it => some it.frame == frame_id)).map PoseItem.keypoints

/-- `np.arctan2 y x`, the angle of the point `(x, y)`, as the argument of the
complex number `x + y i` (both lie in `(-pi, pi]` and agree on every ray). -/
noncomputable def np_arctan2 (y x : ℝ) : ℝ := Complex.arg ⟨x, y⟩

/-- The per-frame trunk-flexion value used by `feature2kinematic`: the mean
shoulder y minus the mean hip y. -/
def trunkFlexionVal (kp : Keypoints) : ℚ :=
  ((kp kpLeftShoulder).y + (kp kpRightShoulder).y) / 2
    - ((kp kpLeftHip).y + (kp kpRightHip).y) / 2

/-- The feature dictionary built by `feature2kinematic`, with each optional
field holding what `kinematic.get(...)` returns: `none` when the guarding
`get_keypoints_at` lookup failed (the key was never written), or, for the
abduction angle, also when the angle itself is the Python `None`. -/
structure Kinematic where
  trunk_flexion_excursion : ℚ
  pelvis_obliquity_at_fc : Option ℚ
  trunk_rotation_at_br : Option ℝ
  shoulder_abduction_at_br : Option ℝ
  trunk_flexion_at_br : Option ℚ
  trunk_lateral_flexion_at_hs : Option ℚ

/-- The six features computed by `feature2kinematic` on the non-empty pose
sequence `p0 :: rest`: excursion of the trunk-flexion value over all frames,
pelvis obliquity at the landing frame, trunk rotation (arctan2 of the
shoulder vector, in degrees), shoulder abduction (right wrist-elbow-shoulder
angle) and trunk flexion at the release frame, and lateral flexion at the
first frame. -/
noncomputable def kinOf (p0 : PoseItem) (rest : List PoseItem) (release_frame : ℕ)
    (landing_frame : Option ℕ) : Kinematic :=
  { trunk_flexion_excursion :=
      (rest.map (fun it => trunkFlexionVal it.keypoints)).foldl max
          (trunkFlexionVal p0.keypoints)
        - (rest.map (fun it => trunkFlexionVal it.keypoints)).foldl min
          (trunkFlexionVal p0.keypoints),
    pelvis_obliquity_at_fc :=
      match get_keypoints_at (p0 :: rest) landing_frame with
      | none => none
      | some kp => some ((kp kpLeftHip).y - (kp kpRightHip).y),
    trunk_rotation_at_br :=
      match get_keypoints_at (p0 :: rest) (some release_frame) with
      | none => none
      | some kp => some (np_arctan2
          (((kp kpLeftShoulder).y : ℝ) - ((kp kpRightShoulder).y : ℝ))
          (((kp kpLeftShoulder).x : ℝ) - ((kp kpRightShoulder).x : ℝ)) * 180 / Real.pi),
    shoulder_abduction_at_br :=
      match get_keypoints_at (p0 :: rest) (some release_frame) with
      | none => none
      | some kp => calculate_pixel_angle (pt2 (kp kpRightWrist))
          (pt2 (kp kpRightElbow)) (pt2 (kp kpRightShoulder)),
    trunk_flexion_at_br :=
      match get_keypoints_at (p0 :: rest) (some release_frame) with
      | none => none
      | some kp => some (trunkFlexionVal kp),
    trunk_lateral_flexion_at_hs :=
      match get_keypoints_at (p0 :: rest) (some p0.frame) with
      | none => none
      | some kp => some ((kp kpLeftShoulder).y - (kp kpRightShoulder).y) }

/-- Embedding of `feature2kinematic(pose_sequence, release_frame,
landing_frame)`: on an empty sequence Python raises (`max()` of an empty
list), modelled by the error value; otherwise the six-feature dictionary. -/
noncomputable def feature2kinematic (ps : List PoseItem) (release_frame : ℕ)
    (landing_frame : Option ℕ) : Except Unit Kinematic :=
  match ps with
  | [] => .error ()
  | p0 :: rest => .ok (kinOf p0 rest release_frame landing_frame)

/-- The dictionary returned by `extract_pitching_biomechanics` on success:
the three event frames, the sequence length, and the six kinematic features
(each an explicit null when unavailable). -/
structure BioRecord where
  release_frame : ℕ
  landing_frame : Option ℕ
  shoulder_frame : Option ℕ
  total_frames : ℕ
  trunk_flexion_excursion : ℚ
  pelvis_obliquity_at_fc : Option ℚ
  trunk_rotation_at_br : Option ℝ
  shoulder_abduction_at_br : Option ℝ
  trunk_flexion_at_br : Option ℚ
  trunk_lateral_flexion_at_hs : Option ℚ

/-- Embedding of `extract_pitching_biomechanics(result)` on an already parsed
pose sequence: `.ok none` models the `return {}` taken when the sequence is
empty or the release detector finds nothing, `.error ()` models a Python
exception propagating out of a detector, and `.ok (some r)` the full record
(the landing frame is computed before the shoulder frame, as in the source;
both are pure, so the order does not matter here). -/
noncomputable def extract_pitching_biomechanics (ps : List PoseItem) :
    Except Unit (Option BioRecord) :=
  if ps.isEmpty then .ok none
  else
    (detect_release_frame ps).bind fun relOpt =>
      match relOpt with
      | none => .ok none
      | some rel =>
        (detect_shoulder_frame ps rel).bind fun shoulderOpt =>
          (feature2kinematic ps rel (detect_landing_frame ps rel)).map fun kin =>
            some { release_frame := rel,
                   landing_frame := detect_landing_frame ps rel,
                   shoulder_frame := shoulderOpt,
                   total_frames := ps.length,
                   trunk_flexion_excursion := kin.trunk_flexion_excursion,
                   pelvis_obliquity_at_fc := kin.pelvis_obliquity_at_fc,
                   trunk_rotation_at_br := kin.trunk_rotation_at_br,
                   shoulder_abduction_at_br := kin.shoulder_abduction_at_br,
                   trunk_flexion_at_br := kin.trunk_flexion_at_br,
                   trunk_lateral_flexion_at_hs := kin.trunk_lateral_flexion_at_hs }

lemma feature2kinematic_cons (p0 : PoseItem) (rest : List PoseItem) (rel : ℕ)
    (landing : Option ℕ) :
    feature2kinematic (p0 :: rest) rel landing = .ok (kinOf p0 rest rel landing) := rfl

lemma kinOf_pelvis (p0 : PoseItem) (rest : List PoseItem) (rel : ℕ)
    (landing : Option ℕ) :
    (kinOf p0 rest rel landing).pelvis_obliquity_at_fc =
      match get_keypoints_at (p0 :: rest) landing with
      | none => none
      | some kp => some ((kp kpLeftHip).y - (kp kpRightHip).y) := rfl

lemma kinOf_rotation (p0 : PoseItem) (rest : List PoseItem) (rel : ℕ)
    (landing : Option ℕ) :
    (kinOf p0 rest rel landing).trunk_rotation_at_br =
      match get_keypoints_at (p0 :: rest) (some rel) with
      | none => none
      | some kp => some (np_arctan2
          (((kp kpLeftShoulder).y : ℝ) - ((kp kpRightShoulder).y : ℝ))
          (((kp kpLeftShoulder).x : ℝ) - ((kp kpRightShoulder).x : ℝ)) * 180 / Real.pi) := rfl

lemma kinOf_flexion_br (p0 : PoseItem) (rest : List PoseItem) (rel : ℕ)
    (landing : Option ℕ) :
    (kinOf p0 rest rel landing).trunk_flexion_at_br =
      match get_keypoints_at (p0 :: rest) (some rel) with
      | none => none
      | some kp => some (trunkFlexionVal kp) := rfl

lemma extract_nil : extract_pitching_biomechanics [] = .ok none := rfl

lemma extract_cons_release_ok_none (p0 : PoseItem) (rest : List PoseItem)
    (h : detect_release_frame (p0 :: rest) = .ok none) :
    extract_pitching_biomechanics (p0 :: rest) = .ok none := by
  unfold extract_pitching_biomechanics
  rw [if_neg (by simp), h, except_bind_ok]

lemma extract_cons_release_error (p0 : PoseItem) (rest : List PoseItem) (e : Unit)
    (h : detect_release_frame (p0 :: rest) = .error e) :
    extract_pitching_biomechanics (p0 :: rest) = .error e := by
  unfold extract_pitching_biomechanics
  rw [if_neg (by simp), h, except_bind_error]

lemma extract_release_shoulder_error (p0 : PoseItem) (rest : List PoseItem)
    (rel : ℕ) (e : Unit)
    (hrel : detect_release_frame (p0 :: rest) = .ok (some rel))
    (hsh : detect_shoulder_frame (p0 :: rest) rel = .error e) :
    extract_pitching_biomechanics (p0 :: rest) = .error e := by
  unfold extract_pitching_biomechanics
  rw [if_neg (by simp), hrel, except_bind_ok]
  simp only [hsh, except_bind_error]

lemma extract_release_shoulder_ok (p0 : PoseItem) (rest : List PoseItem)
    (rel : ℕ) (sh : Option ℕ)
    (hrel : detect_release_frame (p0 :: rest) = .ok (some rel))
    (hsh : detect_shoulder_frame (p0 :: rest) rel = .ok sh) :
    extract_pitching_biomechanics (p0 :: rest) =
      .ok (some
        { release_frame := rel,
          landing_frame := detect_landing_frame (p0 :: rest) rel,
          shoulder_frame := sh,
          total_frames := (p0 :: rest).length,
          trunk_flexion_excursion :=
            (kinOf p0 rest rel (detect_landing_frame (p0 :: rest) rel)).trunk_flexion_excursion,
          pelvis_obliquity_at_fc :=
            (kinOf p0 rest rel (detect_landing_frame (p0 :: rest) rel)).pelvis_obliquity_at_fc,
          trunk_rotation_at_br :=
            (kinOf p0 rest rel (detect_landing_frame (p0 :: rest) rel)).trunk_rotation_at_br,
          shoulder_abduction_at_br :=
            (kinOf p0 rest rel (detect_landing_frame (p0 :: rest) rel)).shoulder_abduction_at_br,
          trunk_flexion_at_br :=
            (kinOf p0 rest rel (detect_landing_frame (p0 :: rest) rel)).trunk_flexion_at_br,
          trunk_lateral_flexion_at_hs :=
            (kinOf p0 rest rel (detect_landing_frame (p0 :: rest) rel)).trunk_lateral_flexion_at_hs }) := by
  unfold extract_pitching_biomechanics
  rw [if_neg (by simp), hrel, except_bind_ok]
  simp only [hsh, except_bind_ok, feature2kinematic_cons, except_map_ok]

lemma detect_release_nil : detect_release_frame [] = .ok none := rfl

/-- Keypoints at which no release-candidate condition holds (all joints at
the origin with full confidence). -/
def kp3z : Keypoints := fun _ => ⟨0, 0, 1⟩

/-- A well-formed one-frame pose sequence with no release candidate. -/
def ps3bad : List PoseItem := [⟨0, kp3z⟩]

lemma not_releasePred_kp3z : ¬ releasePred ⟨0, kp3z⟩ := by
  intro h
  unfold releasePred at h
  exact absurd h.1 (by decide)

lemma detect_release_ps3bad : detect_release_frame ps3bad = .ok none := by
  rw [release_notfound_iff]
  intro item hitem
  rcases List.mem_singleton.mp hitem with rfl
  exact not_releasePred_kp3z

lemma detect_release_ps2bad : detect_release_frame ps2bad = .error () := by
  unfold detect_release_frame
  rw [releaseCandidates_ps2bad, if_neg (by simp)]
  rfl

/-- Counterexample to C3: the pipeline does not always return a structured
record with explicit nulls. On the well-formed one-frame sequence `ps3bad`
the release detector finds nothing and `extract_pitching_biomechanics`
returns the empty dictionary (`.ok none`) — no release-dependent feature is
present at all, as a null or otherwise; and on the well-formed sequence
`ps2bad` the pipeline even raises a TypeError (`.error ()`) instead of
returning. -/
theorem claim3_pipeline_counterexample :
    (ps3bad ≠ [] ∧ detect_release_frame ps3bad = .ok none ∧
      extract_pitching_biomechanics ps3bad = .ok none ∧
      ∀ r : BioRecord, extract_pitching_biomechanics ps3bad ≠ .ok (some r)) ∧
    extract_pitching_biomechanics ps2bad = .error () := by
  have h3 : extract_pitching_biomechanics ps3bad = .ok none :=
    extract_cons_release_ok_none ⟨0, kp3z⟩ [] detect_release_ps3bad
  refine ⟨⟨by simp [ps3bad], detect_release_ps3bad, h3, ?_⟩, ?_⟩
  · intro r hr
    rw [h3] at hr
    exact absurd (Except.ok.inj hr) (by simp)
  · exact extract_cons_release_error ⟨0, kp2bad⟩ [] () detect_release_ps2bad

/-- C3 corrected: the pipeline is total only in the modelled sense that its
outcomes are exhausted by the empty dictionary, a propagated detector
exception, and a full record. It returns the empty dictionary — with no
feature keys at all, explicit nulls included — exactly when the pose
sequence is empty or the release detector finds no candidate; a detector
exception (a TypeError from comparing a `None` angle) propagates out; and
only when the release frame is found and the shoulder detector returns
normally does it return a record, in which the landing and shoulder frames
and the frame-lookup-guarded features are explicit nulls exactly when their
prerequisite lookup failed. -/
theorem claim3_pipeline :
    (∀ ps, extract_pitching_biomechanics ps = .ok none ↔
      ps = [] ∨ detect_release_frame ps = .ok none) ∧
    (∀ ps, ps ≠ [] → ∀ e, detect_release_frame ps = .error e →
      extract_pitching_biomechanics ps = .error e) ∧
    (∀ ps rel, detect_release_frame ps = .ok (some rel) →
      ∀ sh, detect_shoulder_frame ps rel = .ok sh →
      ∃ r : BioRecord, extract_pitching_biomechanics ps = .ok (some r) ∧
        r.release_frame = rel ∧
        r.landing_frame = detect_landing_frame ps rel ∧
        r.shoulder_frame = sh ∧
        r.total_frames = ps.length ∧
        (r.pelvis_obliquity_at_fc = none ↔
          get_keypoints_at ps (detect_landing_frame ps rel) = none) ∧
        (r.trunk_rotation_at_br = none ↔ get_keypoints_at ps (some rel) = none) ∧
        (r.trunk_flexion_at_br = none ↔ get_keypoints_at ps (some rel) = none)) := by
  refine ⟨?_, ?_, ?_⟩
  · intro ps
    cases ps with
    | nil =>
      constructor
      · intro _
        exact Or.inl rfl
      · intro _
        exact extract_nil
    | cons p0 rest =>
      constructor
      · intro hok
        cases hrel : detect_release_frame (p0 :: rest) with
        | error e =>
          rw [extract_cons_release_error p0 rest e hrel] at hok
          exact absurd hok (by simp)
        | ok relOpt =>
          cases relOpt with
          | none => exact Or.inr rfl
          | some rel =>
            exfalso
            cases hsh : detect_shoulder_frame (p0 :: rest) rel with
            | error e =>
              rw [extract_release_shoulder_error p0 rest rel e hrel hsh] at hok
              exact absurd hok (by simp)
            | ok sh =>
              rw [extract_release_shoulder_ok p0 rest rel sh hrel hsh] at hok
              exact absurd (Except.ok.inj hok) (by simp)
      · rintro (h | h)
        · exact absurd h (by simp)
        · exact extract_cons_release_ok_none p0 rest h
  · intro ps hne e hrel
    cases ps with
    | nil => exact absurd rfl hne
    | cons p0 rest => exact extract_cons_release_error p0 rest e hrel
  · intro ps rel hrel sh hsh
    cases ps with
    | nil =>
      exfalso
      rw [detect_release_nil] at hrel
      exact absurd (Except.ok.inj hrel) (by simp)
    | cons p0 rest =>
      refine ⟨_, extract_release_shoulder_ok p0 rest rel sh hrel hsh,
        rfl, rfl, rfl, rfl, ?_, ?_, ?_⟩
      · rw [kinOf_pelvis]
        cases h : get_keypoints_at (p0 :: rest) (detect_landing_frame (p0 :: rest) rel) with
        | none => simp
        | some kp => simp
      · rw [kinOf_rotation]
        cases h : get_keypoints_at (p0 :: rest) (some rel) with
        | none => simp
        | some kp => simp
      · rw [kinOf_flexion_br]
        cases h : get_keypoints_at (p0 :: rest) (some rel) with
        | none => simp
        | some kp => simp

lemma kp2good_ls : kp2good kpLeftShoulder = ⟨0, 10, 1⟩ := by decide

lemma kp2good_rs : kp2good kpRightShoulder = ⟨0, 10, 1⟩ := by decide

lemma kp2good_lh : kp2good kpLeftHip = ⟨0, 10, 1⟩ := by decide

lemma kp2good_rw : kp2good kpRightWrist = ⟨5, 0, 1⟩ := by decide

lemma shoulderStep_eval_good :
    shoulderStep (false, []) ⟨0, kp2good⟩ = (true, []) := by
  unfold shoulderStep
  norm_num [kp2good_ls, kp2good_rs, kp2good_lh, kp2good_rw, min_def]

lemma shoulderCandidates_ps2good : shoulderCandidates ps2good 0 = [] := by
  unfold shoulderCandidates
  have htw : ps2good.takeWhile (fun item => decide (item.frame ≤ 0)) = ps2good := by
    unfold ps2good
    simp
  rw [htw]
  show (List.foldl shoulderStep (false, []) [⟨0, kp2good⟩]).2 = _
  rw [List.foldl_cons, shoulderStep_eval_good, List.foldl_nil]

lemma angle_kp2good_isSome : (calculate_pixel_angle (5, 0) (1, 1) (0, 10)).isSome := by
  cases h : calculate_pixel_angle (5, 0) (1, 1) (0, 10) with
  | none =>
    rcases (angle_eq_none_iff _ _ _).mp h with hd | hd
    · exact absurd hd (by decide)
    · exact absurd hd (by decide)
  | some a => rfl

lemma detect_release_ps2good : detect_release_frame ps2good = .ok (some 0) := by
  have hall : ∀ c ∈ releaseCandidates ps2good, c.elbow_angle.isSome := by
    intro c hcm
    rw [releaseCandidates_ps2good] at hcm
    rcases List.mem_singleton.mp hcm with rfl
    exact angle_kp2good_isSome
  have hne : releaseCandidates ps2good ≠ [] := by
    rw [releaseCandidates_ps2good]
    simp
  rcases release_selection_spec ps2good hall hne with ⟨c, hcm, a, m, hdet, _⟩
  rw [releaseCandidates_ps2good] at hcm
  rcases List.mem_singleton.mp hcm with rfl
  exact hdet

lemma detect_shoulder_ps2good : detect_shoulder_frame ps2good 0 = .ok none :=
  (shoulder_notfound_iff ps2good 0).mpr shoulderCandidates_ps2good

/-- Witness for C3 at a concrete input: on the one-frame sequence `ps2good`
the release frame is found at 0, the shoulder detector returns not-found, and
the pipeline returns a full record in which the landing frame and the
landing-dependent pelvis feature are explicit nulls. -/
theorem claim3_pipeline_witness :
    ∃ r : BioRecord, extract_pitching_biomechanics ps2good = .ok (some r) ∧
      r.release_frame = 0 ∧
      r.landing_frame = detect_landing_frame ps2good 0 ∧
      r.shoulder_frame = none ∧
      r.total_frames = ps2good.length ∧
      (r.pelvis_obliquity_at_fc = none ↔
        get_keypoints_at ps2good (detect_landing_frame ps2good 0) = none) ∧
      (r.trunk_rotation_at_br = none ↔ get_keypoints_at ps2good (some 0) = none) ∧
      (r.trunk_flexion_at_br = none ↔ get_keypoints_at ps2good (some 0) = none) :=
  claim3_pipeline.2.2 ps2good 0 detect_release_ps2good none detect_shoulder_ps2good

/-! ### Key casing between the extractor, the profile builder and the scorer
(extract_pitching_biomechanics, create_pitch_profile, calculate_score_from_comparison) -/

/-- The ten keys emitted by `extract_pitching_biomechanics`, with their
original casing, in source order. -/
def extractorKeys : List String :=
  ["release_frame", "landing_frame", "shoulder_frame", "total_frames",
   "Trunk_flexion_excursion", "Pelvis_obliquity_at_FC", "Trunk_rotation_at_BR",
   "Shoulder_abduction_at_BR", "Trunk_flexion_at_BR", "Trunk_lateral_flexion_at_HS"]

/-- The dictionary returned by `extract_pitching_biomechanics`, as the scorer
receives it: the ten keys with their original casing, numeric values cast to
floats, absent features as explicit nulls. -/
noncomputable def bioRecordToDict (r : BioRecord) : FeatureDict :=
  [("release_frame", some (r.release_frame : ℝ)),
   ("landing_frame", r.landing_frame.map (fun n => (n : ℝ))),
   ("shoulder_frame", r.shoulder_frame.map (fun n => (n : ℝ))),
   ("total_frames", some (r.total_frames : ℝ)),
   ("Trunk_flexion_excursion", some (r.trunk_flexion_excursion : ℝ)),
   ("Pelvis_obliquity_at_FC", r.pelvis_obliquity_at_fc.map (fun q => (q : ℝ))),
   ("Trunk_rotation_at_BR", r.trunk_rotation_at_br),
   ("Shoulder_abduction_at_BR", r.shoulder_abduction_at_br),
   ("Trunk_flexion_at_BR", r.trunk_flexion_at_br.map (fun q => (q : ℝ))),
   ("Trunk_lateral_flexion_at_HS", r.trunk_lateral_flexion_at_hs.map (fun q => (q : ℝ)))]

lemma map_fst_bioRecordToDict (r : BioRecord) :
    (bioRecordToDict r).map Prod.fst = extractorKeys := rfl

lemma lower_extractor_keys : ∀ k ∈ extractorKeys, pyLower k ∈ feature_columns := by
  decide

lemma extractor_lower_no_upper :
    ∀ k ∈ extractorKeys, ∀ ch ∈ (pyLower k).data, ch.isUpper = false := by
  decide

lemma lookup_profile_none (s : String) (hs : ∀ ch ∈ s.data, ch.isUpper = false)
    (profile_data : ProfileData)
    (hp : ∀ e ∈ profile_data, ∃ ch ∈ e.1.data, ch.isUpper = true) :
    List.lookup s profile_data = none := by
  rw [List.lookup_eq_none_iff]
  intro p hmem
  rcases hp p hmem with ⟨ch, hch, hup⟩
  rw [bne_iff_ne]
  intro hc
  rw [← hc] at hch
  rw [hs ch hch] at hup
  exact absurd hup (by simp)

lemma score_zero_of_upper_profile (features : FeatureDict) (profile_data : ProfileData)
    (hf : ∀ kv ∈ features, ∀ ch ∈ (pyLower kv.1).data, ch.isUpper = false)
    (hp : ∀ e ∈ profile_data, ∃ ch ∈ e.1.data, ch.isUpper = true) :
    calculate_score_from_comparison features profile_data = 0 := by
  rw [score_eq_characterization]
  have hc : comparables features profile_data = [] := by
    unfold comparables
    rw [List.filterMap_eq_nil_iff]
    intro kv hkv
    have hl : List.lookup (pyLower kv.1) profile_data = none :=
      lookup_profile_none _ (hf kv hkv) profile_data hp
    unfold comparableEntry
    rw [hl]
  rw [if_pos hc]

/-- C10 confirmed: the extractor emits exactly the ten keys (in their original
casing); each of them, lowercased, is one of the ten lowercase column names
the profile builder emits; and against a profile none of whose keys is
all-lowercase (each contains an uppercase character) the scorer finds no
comparable feature and returns 0. -/
theorem claim10_casefold :
    (∀ r : BioRecord, (bioRecordToDict r).map Prod.fst = extractorKeys) ∧
    (∀ k ∈ extractorKeys, pyLower k ∈ feature_columns) ∧
    (∀ (r : BioRecord) (profile_data : ProfileData),
      (∀ e ∈ profile_data, ∃ ch ∈ e.1.data, ch.isUpper = true) →
      calculate_score_from_comparison (bioRecordToDict r) profile_data = 0) := by
  refine ⟨fun r => map_fst_bioRecordToDict r, lower_extractor_keys, ?_⟩
  intro r profile_data hp
  apply score_zero_of_upper_profile _ _ ?_ hp
  intro kv hkv
  have h1 : kv.1 ∈ (bioRecordToDict r).map Prod.fst := List.mem_map_of_mem _ hkv
  rw [map_fst_bioRecordToDict] at h1
  exact extractor_lower_no_upper kv.1 h1

/-- A concrete record of the extractor's output shape. -/
noncomputable def r10 : BioRecord := ⟨0, none, none, 1, 5, none, none, none, none, none⟩

/-- A profile whose only key keeps the extractor's original (non-lowercase)
casing. -/
noncomputable def profile10 : ProfileData :=
  [("Trunk_flexion_excursion", [("mean", some 0), ("std", some 1)])]

/-- Witness for C10 at concrete inputs: the key list of a concrete record,
one concrete key whose lowercase is a profile column, and a score of 0
against a profile keyed with the original casing. -/
theorem claim10_casefold_witness :
    (bioRecordToDict r10).map Prod.fst = extractorKeys ∧
    pyLower "Trunk_flexion_excursion" ∈ feature_columns ∧
    calculate_score_from_comparison (bioRecordToDict r10) profile10 = 0 := by
  refine ⟨claim10_casefold.1 r10,
    claim10_casefold.2.1 "Trunk_flexion_excursion" (by decide),
    claim10_casefold.2.2 r10 profile10 ?_⟩
  intro e he
  rcases List.mem_singleton.mp he with rfl
  exact ⟨'T', by decide, by decide⟩

end Pitch
